import Mathlib

/-!
Verification development for the chess engine in `agent_minimax.py`.

The engine core (class `MinimaxAgent`: evaluation, move ordering,
transposition table, quiescence search, minimax with alpha-beta, and the
iterative-deepening controller `select_move`) is embedded shallowly below.
The position model is the external `python-chess` library (`chess.Board`),
which the repository's spec treats as an assumed-available external
collaborator; it is embedded here as a bitboard position type with the
library's documented semantics (legal-move enumeration, check and terminal
predicates, repetition bookkeeping via the move stack).

Conventions mirrored from the source:
  * squares are 0..63 with a1 = 0, h1 = 7, a8 = 56, h8 = 63;
  * WHITE is `true`, BLACK is `false` (as in `python-chess`);
  * bitboards are 64-bit masks held in `Nat`;
  * scores are `Int` centipawns, White-relative.
-/

set_option maxRecDepth 100000

namespace ChessEngine

/-- Mask of all 64 squares (a 64-bit bitboard with every bit set). -/
def BB_ALL : Nat := 0xFFFFFFFFFFFFFFFF

/-- File a mask (squares 0, 8, 16, ..., 56). -/
def BB_FILE_A : Nat := 0x0101010101010101

/-- File b mask. -/
def BB_FILE_B : Nat := 0x0202020202020202

/-- File g mask. -/
def BB_FILE_G : Nat := 0x4040404040404040

/-- File h mask. -/
def BB_FILE_H : Nat := 0x8080808080808080

/-- Rank 3 mask (squares 16..23), target rank of a white double pawn push's
intermediate legality mask in `python-chess`'s generator. -/
def BB_RANK_3 : Nat := 0x0000000000FF0000

/-- Rank 4 mask. -/
def BB_RANK_4 : Nat := 0x00000000FF000000

/-- Rank 5 mask. -/
def BB_RANK_5 : Nat := 0x000000FF00000000

/-- Rank 6 mask. -/
def BB_RANK_6 : Nat := 0x0000FF0000000000

/-- Complement within the 64-bit board universe. Python's `~x` is an
infinite two's complement, but the source always conjoins it with a
64-bit mask, which is what this computes. -/
def bbNot (bb : Nat) : Nat := BB_ALL ^^^ (bb &&& BB_ALL)

/-- Single-square bitboard. -/
def bbSquare (sq : Nat) : Nat := (1 <<< sq) &&& BB_ALL

/-- Test whether bitboard `bb` contains square `sq`. -/
def bbHas (bb sq : Nat) : Bool := bb &&& bbSquare sq != 0

/-- The 64 squares in descending order, mirroring `python-chess`'s
`scan_reversed` which yields set bits from most significant to least. -/
def squaresDesc : List Nat :=
  [63, 62, 61, 60, 59, 58, 57, 56, 55, 54, 53, 52, 51, 50, 49, 48,
   47, 46, 45, 44, 43, 42, 41, 40, 39, 38, 37, 36, 35, 34, 33, 32,
   31, 30, 29, 28, 27, 26, 25, 24, 23, 22, 21, 20, 19, 18, 17, 16,
   15, 14, 13, 12, 11, 10, 9, 8, 7, 6, 5, 4, 3, 2, 1, 0]

/-- The 64 squares in ascending order. -/
def squaresAsc : List Nat :=
  [0, 1, 2, 3, 4, 5, 6, 7, 8, 9, 10, 11, 12, 13, 14, 15,
   16, 17, 18, 19, 20, 21, 22, 23, 24, 25, 26, 27, 28, 29, 30, 31,
   32, 33, 34, 35, 36, 37, 38, 39, 40, 41, 42, 43, 44, 45, 46, 47,
   48, 49, 50, 51, 52, 53, 54, 55, 56, 57, 58, 59, 60, 61, 62, 63]

/-- Set bits of a bitboard, most significant first (`scan_reversed`). -/
def scanReversed (bb : Nat) : List Nat := squaresDesc.filter (bbHas bb)

/-- Number of set bits of a bitboard (`popcount`). -/
def popcount (bb : Nat) : Nat := (squaresAsc.filter (bbHas bb)).length

/-- Vertical mirror of a square (`chess.square_mirror`): `sq XOR 56`. -/
def square_mirror (sq : Nat) : Nat := sq ^^^ 56

/-- File (0..7) of a square. -/
def squareFile (sq : Nat) : Nat := sq % 8

/-- Rank (0..7) of a square. -/
def squareRank (sq : Nat) : Nat := sq / 8

/-- Piece kinds, as in `python-chess` (`PAWN` .. `KING`). -/
inductive PieceType where
  | pawn
  | knight
  | bishop
  | rook
  | queen
  | king
deriving DecidableEq, Repr, BEq

/-- Chess move: from-square, to-square, optional promotion piece. This is
the part of `chess.Move` the engine observes (`drop` is never used). -/
structure Move where
  fromSq : Nat
  toSq : Nat
  promotion : Option PieceType := none
deriving DecidableEq, Repr, BEq

/-!
PeSTO piece-square tables, copied verbatim from `agent_minimax.py`.
The source lists them in visual order (rank 8 first) and then applies
`flip_ranks` to convert to rank-1-first indexing; we do the same.
-/

/-- Middlegame pawn table, visual order (rank 8 first), as written in the
source before `flip_ranks` is applied. -/
def PAWN_MG_visual : List Int :=
  [  0,   0,   0,   0,   0,   0,  0,   0,
    98, 134,  61,  95,  68, 126, 34, -11,
    -6,   7,  26,  31,  65,  56, 25, -20,
   -14,  13,   6,  21,  23,  12, 17, -23,
   -27,  -2,  -5,  12,  17,   6, 10, -25,
   -26,  -4,  -4, -10,   3,   3, 33, -12,
   -35,  -1, -20, -23, -15,  24, 38, -22,
     0,   0,   0,   0,   0,   0,  0,   0]

/-- Endgame pawn table, visual order. -/
def PAWN_EG_visual : List Int :=
  [  0,   0,   0,   0,   0,   0,   0,   0,
   178, 173, 158, 134, 147, 132, 165, 187,
    94, 100,  85,  67,  56,  53,  82,  84,
    32,  24,  13,   5,  -2,   4,  17,  17,
    13,   9,  -3,  -7,  -7,  -8,   3,  -1,
     4,   7,  -6,   1,   0,  -5,  -1,  -8,
    13,   8,   8,  10,  13,   0,   2,  -7,
     0,   0,   0,   0,   0,   0,   0,   0]

/-- Middlegame knight table, visual order. -/
def KNIGHT_MG_visual : List Int :=
  [-167, -89, -34, -49,  61, -97, -15, -107,
    -73, -41,  72,  36,  23,  62,   7,  -17,
    -47,  60,  37,  65,  84, 129,  73,   44,
     -9,  17,  19,  53,  37,  69,  18,   22,
    -13,   4,  16,  13,  28,  19,  21,   -8,
    -23,  -9,  12,  10,  19,  17,  25,  -16,
    -29, -53, -12,  -3,  -1,  18, -14,  -19,
   -105, -21, -58, -33, -17, -28, -19,  -23]

/-- Endgame knight table, visual order. -/
def KNIGHT_EG_visual : List Int :=
  [-58, -38, -13, -28, -31, -27, -63, -99,
   -25,  -8, -25,  -2,  -9, -25, -24, -52,
   -24, -20,  10,   9,  -1,  -9, -19, -41,
   -17,   3,  22,  22,  22,  11,   8, -18,
   -18,  -6,  16,  25,  16,  17,   4, -18,
   -23,  -3,  -1,  15,  10,  -3, -20, -22,
   -42, -20, -10,  -5,  -2, -20, -23, -44,
   -29, -51, -23, -15, -22, -18, -50, -64]

/-- Middlegame bishop table, visual order. -/
def BISHOP_MG_visual : List Int :=
  [-29,   4, -82, -37, -25, -42,   7,  -8,
   -26,  16, -18, -13,  30,  59,  18, -47,
   -16,  37,  43,  40,  35,  50,  37,  -2,
    -4,   5,  19,  50,  37,  37,   7,  -2,
    -6,  13,  13,  26,  34,  12,  10,   4,
     0,  15,  15,  15,  14,  27,  18,  10,
     4,  15,  16,   0,   7,  21,  33,   1,
   -33,  -3, -14, -21, -13, -12, -39, -21]

/-- Endgame bishop table, visual order. -/
def BISHOP_EG_visual : List Int :=
  [-14, -21, -11,  -8, -7,  -9, -17, -24,
    -8,  -4,   7, -12, -3, -13,  -4, -14,
     2,  -8,   0,  -1, -2,   6,   0,   4,
    -3,   9,  12,   9, 14,  10,   3,   2,
    -6,   3,  13,  19,  7,  10,  -3,  -9,
   -12,  -3,   8,  10, 13,   3,  -7, -15,
   -14, -18,  -7,  -1,  4,  -9, -15, -27,
   -23,  -9, -23,  -5, -9, -16,  -5, -17]

/-- Middlegame rook table, visual order. -/
def ROOK_MG_visual : List Int :=
  [ 32,  42,  32,  51, 63,  9,  31,  43,
    27,  32,  58,  62, 80, 67,  26,  44,
    -5,  19,  26,  36, 17, 45,  61,  16,
   -24, -11,   7,  26, 24, 35,  -8, -20,
   -36, -26, -12,  -1,  9, -7,   6, -23,
   -45, -25, -16, -17,  3,  0,  -5, -33,
   -44, -16, -20,  -9, -1, 11,  -6, -71,
   -19, -13,   1,  17, 16,  7, -37, -26]

/-- Endgame rook table, visual order. -/
def ROOK_EG_visual : List Int :=
  [13, 10, 18, 15, 12,  12,   8,   5,
   11, 13, 13, 11, -3,   3,   8,   3,
    7,  7,  7,  5,  4,  -3,  -5,  -3,
    4,  3, 13,  1,  2,   1,  -1,   2,
    3,  5,  8,  4, -5,  -6,  -8, -11,
   -4,  0, -5, -1, -7, -12,  -8, -16,
   -6, -6,  0,  2, -9,  -9, -11,  -3,
   -9,  2,  3, -1, -5, -13,   4, -20]

/-- Middlegame queen table, visual order. -/
def QUEEN_MG_visual : List Int :=
  [-28,   0,  29,  12,  59,  44,  43,  45,
   -24, -39,  -5,   1, -16,  57,  28,  54,
   -13, -17,   7,   8,  29,  56,  47,  57,
   -27, -27, -16, -16,  -1,  17,  -2,   1,
    -9, -26,  -9, -10,  -2,  -4,   3,  -3,
   -14,   2, -11,  -2,  -5,   2,  14,   5,
   -35,  -8,  11,   2,   8,  15,  -3,   1,
    -1, -18,  -9,  10, -15, -25, -31, -50]

/-- Endgame queen table, visual order. -/
def QUEEN_EG_visual : List Int :=
  [ -9,  22,  22,  27,  27,  19,  10,  20,
   -17,  20,  32,  41,  58,  25,  30,   0,
   -20,   6,   9,  49,  47,  35,  19,   9,
     3,  22,  24,  45,  57,  40,  57,  36,
   -18,  28,  19,  47,  31,  34,  39,  23,
   -16, -27,  15,   6,   9,  17,  10,   5,
   -22, -23, -30, -16, -16, -23, -36, -32,
   -33, -28, -22, -43,  -5, -32, -20, -41]

/-- Middlegame king table, visual order. -/
def KING_MG_visual : List Int :=
  [-65,  23,  16, -15, -56, -34,   2,  13,
    29,  -1, -20,  -7,  -8,  -4, -38, -29,
    -9,  24,   2, -16, -20,   6,  22, -22,
   -17, -20, -12, -27, -30, -25, -14, -36,
   -49,  -1, -27, -39, -46, -44, -33, -51,
   -14, -14, -22, -46, -44, -30, -15, -27,
     1,   7,  -8, -64, -43, -16,   9,   8,
   -15,  36,  12, -54,   8, -28,  24,  14]

/-- Endgame king table, visual order. -/
def KING_EG_visual : List Int :=
  [-74, -35, -18, -18, -11,  15,   4, -17,
   -12,  17,  14,  17,  17,  38,  23,  11,
    10,  17,  23,  15,  20,  45,  44,  13,
    -8,  22,  24,  27,  26,  33,  26,   3,
   -18,  -4,  21,  24,  27,  23,   9, -11,
   -19,  -3,  11,  21,  23,  16,   7,  -9,
   -27, -11,   4,  13,  14,   4,  -5, -17,
   -53, -34, -21, -11, -28, -14, -24, -43]

/-- Reverse a 64-element list from rank-8-first to rank-1-first order
(`flip_ranks` in the source). -/
def flip_ranks (pst : List Int) : Nat → List Int
  | 0 => []
  | r + 1 => (pst.drop (r * 8)).take 8 ++ flip_ranks pst r

/-- Apply `flip_ranks` over all 8 ranks, as the source does once at import
time for every table. -/
def flipRanks8 (pst : List Int) : List Int := flip_ranks pst 8

/-- Pawn middlegame table after rank flipping (index 0 = a1). -/
def PAWN_MG : List Int := flipRanks8 PAWN_MG_visual

/-- Pawn endgame table after rank flipping. -/
def PAWN_EG : List Int := flipRanks8 PAWN_EG_visual

/-- Knight middlegame table after rank flipping. -/
def KNIGHT_MG : List Int := flipRanks8 KNIGHT_MG_visual

/-- Knight endgame table after rank flipping. -/
def KNIGHT_EG : List Int := flipRanks8 KNIGHT_EG_visual

/-- Bishop middlegame table after rank flipping. -/
def BISHOP_MG : List Int := flipRanks8 BISHOP_MG_visual

/-- Bishop endgame table after rank flipping. -/
def BISHOP_EG : List Int := flipRanks8 BISHOP_EG_visual

/-- Rook middlegame table after rank flipping. -/
def ROOK_MG : List Int := flipRanks8 ROOK_MG_visual

/-- Rook endgame table after rank flipping. -/
def ROOK_EG : List Int := flipRanks8 ROOK_EG_visual

/-- Queen middlegame table after rank flipping. -/
def QUEEN_MG : List Int := flipRanks8 QUEEN_MG_visual

/-- Queen endgame table after rank flipping. -/
def QUEEN_EG : List Int := flipRanks8 QUEEN_EG_visual

/-- King middlegame table after rank flipping. -/
def KING_MG : List Int := flipRanks8 KING_MG_visual

/-- King endgame table after rank flipping. -/
def KING_EG : List Int := flipRanks8 KING_EG_visual

/-- PeSTO middlegame material values (`PIECE_VALUE_MG`). -/
def PIECE_VALUE_MG : PieceType → Int
  | .pawn => 82
  | .knight => 337
  | .bishop => 365
  | .rook => 477
  | .queen => 1025
  | .king => 0

/-- PeSTO endgame material values (`PIECE_VALUE_EG`). -/
def PIECE_VALUE_EG : PieceType → Int
  | .pawn => 94
  | .knight => 281
  | .bishop => 297
  | .rook => 512
  | .queen => 936
  | .king => 0

/-- Centipawn piece values used for move ordering and delta pruning
(`self.piece_values` in `MinimaxAgent.__init__`). -/
def piece_values : PieceType → Int
  | .pawn => 100
  | .knight => 320
  | .bishop => 330
  | .rook => 500
  | .queen => 900
  | .king => 0

/-- Game-phase piece weights (`self.phase_values`). -/
def phase_values : PieceType → Nat
  | .pawn => 0
  | .knight => 1
  | .bishop => 1
  | .rook => 2
  | .queen => 4
  | .king => 0

/-!
The position model: a bitboard embedding of the `python-chess` `Board`
state the engine reads. `pawns` .. `kings` hold both colors' pieces;
`occWhite`/`occBlack` are the per-color occupancies (`occupied_co`).
-/

/-- A chess position: piece-kind bitboards, color occupancies, side to
move, castling rights (bitboard of castleable rook squares), en-passant
target square, and the halfmove clock. -/
structure Position where
  pawns : Nat
  knights : Nat
  bishops : Nat
  rooks : Nat
  queens : Nat
  kings : Nat
  occWhite : Nat
  occBlack : Nat
  turn : Bool
  castling : Nat
  ep : Option Nat
  halfmove : Nat
deriving DecidableEq, Repr

namespace Position

/-- All occupied squares. -/
def occupied (p : Position) : Nat := p.occWhite ||| p.occBlack

/-- Occupancy of one color (`occupied_co`). -/
def occCo (p : Position) (c : Bool) : Nat := if c then p.occWhite else p.occBlack

/-- Piece kind at a square (`piece_type_at`): `none` on empty squares. -/
def pieceTypeAt (p : Position) (sq : Nat) : Option PieceType :=
  if !(bbHas p.occupied sq) then none
  else if bbHas p.pawns sq then some .pawn
  else if bbHas p.knights sq then some .knight
  else if bbHas p.bishops sq then some .bishop
  else if bbHas p.rooks sq then some .rook
  else if bbHas p.queens sq then some .queen
  else some .king

/-- Color of the piece at a square, if any. -/
def colorAt (p : Position) (sq : Nat) : Option Bool :=
  if bbHas p.occWhite sq then some true
  else if bbHas p.occBlack sq then some false
  else none

end Position

/-- Knight attack mask of a square, by the standard bitboard shift
formulas with file-wrap masks. -/
def knightAttacksMask (sq : Nat) : Nat :=
  let bb := bbSquare sq
  (((bb <<< 17) &&& bbNot BB_FILE_A) ||| ((bb <<< 15) &&& bbNot BB_FILE_H) |||
   ((bb <<< 10) &&& bbNot (BB_FILE_A ||| BB_FILE_B)) |||
   ((bb <<< 6) &&& bbNot (BB_FILE_G ||| BB_FILE_H)) |||
   ((bb >>> 17) &&& bbNot BB_FILE_H) ||| ((bb >>> 15) &&& bbNot BB_FILE_A) |||
   ((bb >>> 10) &&& bbNot (BB_FILE_G ||| BB_FILE_H)) |||
   ((bb >>> 6) &&& bbNot (BB_FILE_A ||| BB_FILE_B))) &&& BB_ALL

/-- King attack mask of a square. -/
def kingAttacksMask (sq : Nat) : Nat :=
  let bb := bbSquare sq
  (((bb <<< 8) ||| (bb >>> 8) |||
   ((bb <<< 1) &&& bbNot BB_FILE_A) ||| ((bb >>> 1) &&& bbNot BB_FILE_H) |||
   ((bb <<< 9) &&& bbNot BB_FILE_A) ||| ((bb <<< 7) &&& bbNot BB_FILE_H) |||
   ((bb >>> 9) &&& bbNot BB_FILE_H) ||| ((bb >>> 7) &&& bbNot BB_FILE_A)) &&& BB_ALL)

/-- Squares attacked by a pawn of color `c` standing on `sq`
(`BB_PAWN_ATTACKS[color][square]`). -/
def pawnAttacksMask (c : Bool) (sq : Nat) : Nat :=
  let bb := bbSquare sq
  if c then
    (((bb <<< 7) &&& bbNot BB_FILE_H) ||| ((bb <<< 9) &&& bbNot BB_FILE_A)) &&& BB_ALL
  else
    ((bb >>> 7) &&& bbNot BB_FILE_A) ||| ((bb >>> 9) &&& bbNot BB_FILE_H)

/-- One sliding ray: walk from file/rank `(f, r)` in direction `(df, dr)`
over occupancy `occ`, collecting squares until the edge or the first
occupied square (which is included, as a potential capture). -/
def slideStep (occ : Nat) (df dr : Int) : Nat → Int → Int → Nat
  | 0, _, _ => 0
  | fuel + 1, f, r =>
    let f2 := f + df
    let r2 := r + dr
    if 0 ≤ f2 ∧ f2 ≤ 7 ∧ 0 ≤ r2 ∧ r2 ≤ 7 then
      let sq := (r2 * 8 + f2).toNat
      if bbHas occ sq then bbSquare sq
      else bbSquare sq ||| slideStep occ df dr fuel f2 r2
    else 0

/-- Attacks of a sliding piece on `sq` over occupancy `occ` along the
given directions. -/
def slidingAttacks (sq : Nat) (occ : Nat) (dirs : List (Int × Int)) : Nat :=
  dirs.foldl
    (fun acc d =>
      acc ||| slideStep occ d.1 d.2 7 (Int.ofNat (squareFile sq)) (Int.ofNat (squareRank sq)))
    0

/-- Rook directions. -/
def rookDirs : List (Int × Int) := [(0, 1), (0, -1), (1, 0), (-1, 0)]

/-- Bishop directions. -/
def bishopDirs : List (Int × Int) := [(1, 1), (1, -1), (-1, 1), (-1, -1)]

/-- Rook attack mask over an occupancy. -/
def rookAttacks (sq occ : Nat) : Nat := slidingAttacks sq occ rookDirs

/-- Bishop attack mask over an occupancy. -/
def bishopAttacks (sq occ : Nat) : Nat := slidingAttacks sq occ bishopDirs

namespace Position

/-- Attack mask of the piece standing on `sq` (`attacks_mask`). -/
def attacksMask (p : Position) (sq : Nat) : Nat :=
  let bb := bbSquare sq
  if bb &&& p.pawns != 0 then
    pawnAttacksMask (bb &&& p.occWhite != 0) sq
  else if bb &&& p.knights != 0 then knightAttacksMask sq
  else if bb &&& p.kings != 0 then kingAttacksMask sq
  else
    let a := if bb &&& p.bishops != 0 || bb &&& p.queens != 0 then
        bishopAttacks sq p.occupied else 0
    if bb &&& p.rooks != 0 || bb &&& p.queens != 0 then
      a ||| rookAttacks sq p.occupied else a

/-- Mask of pieces of color `c` attacking `sq`, with an explicit occupancy
for the sliding rays (`attackers_mask`). -/
def attackersMaskOcc (p : Position) (c : Bool) (sq : Nat) (occ : Nat) : Nat :=
  ((kingAttacksMask sq &&& p.kings) |||
   (knightAttacksMask sq &&& p.knights) |||
   (rookAttacks sq occ &&& (p.rooks ||| p.queens)) |||
   (bishopAttacks sq occ &&& (p.bishops ||| p.queens)) |||
   (pawnAttacksMask (!c) sq &&& p.pawns)) &&& p.occCo c

/-- Whether color `c` attacks square `sq` (`is_attacked_by`). -/
def isAttackedBy (p : Position) (c : Bool) (sq : Nat) : Bool :=
  p.attackersMaskOcc c sq p.occupied != 0

/-- Square of the king of color `c`, if present (`king(color)`). -/
def kingOf (p : Position) (c : Bool) : Option Nat :=
  (scanReversed (p.kings &&& p.occCo c)).head?

/-- Whether the move is an en-passant capture (`is_en_passant`). -/
def isEnPassant (p : Position) (m : Move) : Bool :=
  p.ep == some m.toSq && bbHas p.pawns m.fromSq &&
  (max m.toSq m.fromSq - min m.toSq m.fromSq == 7 ||
   max m.toSq m.fromSq - min m.toSq m.fromSq == 9) &&
  !(bbHas p.occupied m.toSq)

/-- Whether the move captures something (`is_capture`): the target square
holds an enemy piece, or the move is an en-passant capture. -/
def isCapture (p : Position) (m : Move) : Bool :=
  bbHas (p.occCo !p.turn) m.toSq || p.isEnPassant m

/-- Whether the move is a pawn move or a capture (`is_zeroing`): such
moves reset the halfmove clock and make history irreversible. -/
def isZeroing (p : Position) (m : Move) : Bool :=
  bbHas p.pawns m.fromSq || bbHas (p.occCo !p.turn) m.toSq || p.isEnPassant m

/-- Whether the move is a castling move (`is_castling`): a king move of
more than one file, or a king capturing its own rook (Chess960 styling). -/
def isCastlingMove (p : Position) (m : Move) : Bool :=
  bbHas p.kings m.fromSq &&
  (max (squareFile m.toSq) (squareFile m.fromSq) -
     min (squareFile m.toSq) (squareFile m.fromSq) > 1 ||
   bbHas (p.rooks &&& p.occCo p.turn) m.toSq)

/-- Apply a generated move to the position (the state part of
`Board.push`): move/capture/promotion resolution, en-passant handling,
castling rook transfer, castling-rights and halfmove-clock upkeep, turn
flip, and the new en-passant square on double pawn pushes. -/
def applyMove (p : Position) (m : Move) : Position :=
  let us := p.turn
  let fromBB := bbSquare m.fromSq
  let toBB := bbSquare m.toSq
  let pt := (p.pieceTypeAt m.fromSq).getD .pawn
  let ep_cap := p.isEnPassant m
  let captures := p.isCapture m
  let castle := p.isCastlingMove m
  let capSq := if ep_cap then (if us then m.toSq - 8 else m.toSq + 8) else m.toSq
  let remove := fromBB ||| (if captures then bbSquare capSq else 0)
  let finalPt := m.promotion.getD pt
  -- clear the mover and any captured piece, then place the moved piece
  let clear := fun bb => bb &&& bbNot remove
  let place := fun (t : PieceType) (bb : Nat) => if finalPt = t then bb ||| toBB else bb
  let pawns1 := place .pawn (clear p.pawns)
  let knights1 := place .knight (clear p.knights)
  let bishops1 := place .bishop (clear p.bishops)
  let rooks1 := place .rook (clear p.rooks)
  let queens1 := place .queen (clear p.queens)
  let kings1 := place .king (clear p.kings)
  let occW1 := if us then (clear p.occWhite) ||| toBB else clear p.occWhite
  let occB1 := if us then clear p.occBlack else (clear p.occBlack) ||| toBB
  -- castling: also transfer the rook from its corner to the inner square
  let backrank := if us then 0 else 56
  let kingside := squareFile m.toSq > squareFile m.fromSq
  let rookFrom := if kingside then backrank + 7 else backrank
  let rookTo := if kingside then backrank + 5 else backrank + 3
  let rooks2 := if castle then
      (rooks1 &&& bbNot (bbSquare rookFrom)) ||| bbSquare rookTo else rooks1
  let occW2 := if castle && us then
      (occW1 &&& bbNot (bbSquare rookFrom)) ||| bbSquare rookTo else occW1
  let occB2 := if castle && !us then
      (occB1 &&& bbNot (bbSquare rookFrom)) ||| bbSquare rookTo else occB1
  -- castling rights: any touched corner loses its right; a king move
  -- strips the mover's whole back rank
  let rights1 := p.castling &&& bbNot (fromBB ||| toBB)
  let rights2 := if pt = .king then
      rights1 &&& bbNot (if us then (0xFF : Nat) else 0xFF00000000000000) else rights1
  -- new en-passant square on a double pawn push
  let newEp := if pt = .pawn && m.toSq == m.fromSq + 16 then some (m.fromSq + 8)
    else if pt = .pawn && m.fromSq == m.toSq + 16 then some (m.toSq + 8)
    else none
  let newHalf := if pt = .pawn || captures then 0 else p.halfmove + 1
  { pawns := pawns1, knights := knights1, bishops := bishops1,
    rooks := rooks2, queens := queens1, kings := kings1,
    occWhite := occW2, occBlack := occB2, turn := !us,
    castling := rights2, ep := newEp, halfmove := newHalf }

/-- Moves (possibly several promotions) for a pawn arriving on `toSq`:
`python-chess` yields queen, rook, bishop, knight promotions in that
order on the back ranks, and a single plain move elsewhere. -/
def pawnMovesTo (fromSq toSq : Nat) : List Move :=
  if squareRank toSq == 0 || squareRank toSq == 7 then
    [⟨fromSq, toSq, some .queen⟩, ⟨fromSq, toSq, some .rook⟩,
     ⟨fromSq, toSq, some .bishop⟩, ⟨fromSq, toSq, some .knight⟩]
  else [⟨fromSq, toSq, none⟩]

/-- Squares strictly between two aligned squares (`between`); `0` when the
squares are not on a common line. -/
def betweenMask (a b : Nat) : Nat :=
  let fa := Int.ofNat (squareFile a)
  let ra := Int.ofNat (squareRank a)
  let fb := Int.ofNat (squareFile b)
  let rb := Int.ofNat (squareRank b)
  let df : Int := if fb > fa then 1 else if fb < fa then -1 else 0
  let dr : Int := if rb > ra then 1 else if rb < ra then -1 else 0
  if df == 0 && dr == 0 then 0
  else if fb - fa == 0 || rb - ra == 0 || (fb - fa).natAbs == (rb - ra).natAbs then
    slideStep (bbSquare b) df dr 7 fa ra &&& bbNot (bbSquare b)
  else 0

/-- Castling rights that are actually usable (`clean_castling_rights`,
restricted to standard chess): corner rooks of the side to move with the
king still on its home square. -/
def cleanCastlingRights (p : Position) : Nat :=
  let castling := p.castling &&& p.rooks
  let whiteC := if bbHas (p.kings &&& p.occWhite) 4 then
      castling &&& p.occWhite &&& 0x81 else 0
  let blackC := if bbHas (p.kings &&& p.occBlack) 60 then
      castling &&& p.occBlack &&& 0x8100000000000000 else 0
  whiteC ||| blackC

/-- Whether any square of `path` is attacked by the opponent of the side
to move, computed over an explicit occupancy (`_attacked_for_king`). -/
def attackedForKing (p : Position) (path occ : Nat) : Bool :=
  (scanReversed path).any (fun sq => p.attackersMaskOcc (!p.turn) sq occ != 0)

/-- Castling move generation (`generate_castling_moves`), standard chess:
for each clean castling rook, check that the king and rook paths are
empty and that the king's path is not attacked, and yield the standard
king move (e1g1 / e1c1 style). -/
def castlingMoves (p : Position) (fromMask toMask : Nat) : List Move :=
  let backrank := if p.turn then (0xFF : Nat) else 0xFF00000000000000
  let kingBB := p.occCo p.turn &&& p.kings &&& backrank &&& fromMask
  match (scanReversed kingBB).head? with
  | none => []
  | some king =>
    (scanReversed (cleanCastlingRights p &&& backrank &&& toMask)).filterMap
      (fun candidate =>
        let rookBB := bbSquare candidate
        let aSide := candidate < king
        let kingTo := if aSide then (if p.turn then 2 else 58)
          else (if p.turn then 6 else 62)
        let rookTo := if aSide then (if p.turn then 3 else 59)
          else (if p.turn then 5 else 61)
        let kingPath := betweenMask king kingTo
        let rookPath := betweenMask candidate rookTo
        let kBB := bbSquare king
        if ((p.occupied ^^^ kBB ^^^ rookBB) &&&
              (kingPath ||| rookPath ||| bbSquare kingTo ||| bbSquare rookTo)) != 0 then
          none
        else if attackedForKing p (kingPath ||| kBB) (p.occupied ^^^ kBB) then none
        else if attackedForKing p (bbSquare kingTo)
            (p.occupied ^^^ kBB ^^^ rookBB ^^^ bbSquare rookTo) then none
        else some (⟨king, kingTo, none⟩ : Move))

/-- En-passant capture generation (`generate_pseudo_legal_ep`). -/
def pseudoLegalEp (p : Position) (fromMask toMask : Nat) : List Move :=
  match p.ep with
  | none => []
  | some epSq =>
    if !(bbHas toMask epSq) then []
    else if bbHas p.occupied epSq then []
    else
      let capturers := p.pawns &&& p.occCo p.turn &&& fromMask &&&
        pawnAttacksMask (!p.turn) epSq &&&
        (if p.turn then BB_RANK_5 else BB_RANK_4)
      (scanReversed capturers).map (fun c => ⟨c, epSq, none⟩)

/-- Pseudo-legal move generation (`generate_pseudo_legal_moves`),
in the library's order: non-pawn piece moves (from-squares and targets
both scanned most-significant-first), castling, pawn captures, single
pawn advances, double pawn advances, then en passant. -/
def pseudoLegalMoves (p : Position) (fromMask toMask : Nat) : List Move :=
  let ourPieces := p.occCo p.turn
  let nonPawns := ourPieces &&& bbNot p.pawns &&& fromMask
  let pieceMoves := (scanReversed nonPawns).flatMap (fun fromSq =>
    (scanReversed (p.attacksMask fromSq &&& bbNot ourPieces &&& toMask)).map
      (fun toSq => (⟨fromSq, toSq, none⟩ : Move)))
  let castles := if p.kings &&& fromMask != 0 then castlingMoves p fromMask toMask else []
  let pawns := p.pawns &&& ourPieces &&& fromMask
  let pawnCaptures := (scanReversed pawns).flatMap (fun fromSq =>
    (scanReversed (pawnAttacksMask p.turn fromSq &&& p.occCo (!p.turn) &&& toMask)).flatMap
      (pawnMovesTo fromSq))
  let singleTargets := (if p.turn then (pawns <<< 8) &&& BB_ALL else pawns >>> 8) &&&
    bbNot p.occupied
  let doubleTargets := (if p.turn then (singleTargets <<< 8) &&& BB_ALL &&& BB_RANK_4
      else (singleTargets >>> 8) &&& BB_RANK_5) &&& bbNot p.occupied
  let singles := (scanReversed (singleTargets &&& toMask)).flatMap (fun toSq =>
    pawnMovesTo (if p.turn then toSq - 8 else toSq + 8) toSq)
  let doubles := (scanReversed (doubleTargets &&& toMask)).map (fun toSq =>
    (⟨if p.turn then toSq - 16 else toSq + 16, toSq, none⟩ : Move))
  pieceMoves ++ castles ++ pawnCaptures ++ singles ++ doubles ++
    pseudoLegalEp p fromMask toMask

/-- Whether a pseudo-legal move leaves the mover's own king safe: apply
the move and check that the opponent does not attack the king. This is
the semantic content of the library's `_is_safe` filter (which computes
the same answer from pin and blocker masks). When the mover has no king,
every pseudo-legal move is legal, as in the library. -/
def moveIsLegal (p : Position) (m : Move) : Bool :=
  let child := p.applyMove m
  match child.kingOf p.turn with
  | none => true
  | some ksq => !(child.isAttackedBy (!p.turn) ksq)

/-- Legal moves (`generate_legal_moves` / `board.legal_moves`): the
pseudo-legal moves that leave the king safe. The library reaches the
same set through a specialized evasion generator when in check. -/
def legalMoves (p : Position) : List Move :=
  (pseudoLegalMoves p BB_ALL BB_ALL).filter (moveIsLegal p)

/-- Whether the side to move is in check (`is_check`). -/
def isCheck (p : Position) : Bool :=
  match p.kingOf p.turn with
  | none => false
  | some ksq => p.isAttackedBy (!p.turn) ksq

/-- Checkmate (`is_checkmate`): in check with no legal move. -/
def isCheckmate (p : Position) : Bool :=
  p.isCheck && (legalMoves p).isEmpty

/-- Stalemate (`is_stalemate`): not in check, with no legal move. -/
def isStalemate (p : Position) : Bool :=
  !p.isCheck && (legalMoves p).isEmpty

/-- One side's material is insufficient to win
(`has_insufficient_material`). -/
def hasInsufficientMaterial (p : Position) (c : Bool) : Bool :=
  let occ := p.occCo c
  if occ &&& (p.pawns ||| p.rooks ||| p.queens) != 0 then false
  else if occ &&& p.knights != 0 then
    decide (popcount occ ≤ 2) &&
      (p.occCo (!c) &&& bbNot p.kings &&& bbNot p.queens == 0)
  else if occ &&& p.bishops != 0 then
    (p.bishops &&& 0xAA55AA55AA55AA55 == 0 || p.bishops &&& 0x55AA55AA55AA55AA == 0) &&
      p.pawns == 0 && p.knights == 0
  else true

/-- Draw by insufficient material (`is_insufficient_material`): both
sides lack mating material. -/
def isInsufficientMaterial (p : Position) : Bool :=
  p.hasInsufficientMaterial true && p.hasInsufficientMaterial false

/-- Position key used for repetition detection
(`Board._transposition_key`): every board component except the clocks,
with the en-passant square retained only when a legal en-passant capture
exists. -/
def hasLegalEnPassant (p : Position) : Bool :=
  match p.ep with
  | none => false
  | some epSq =>
    ((pseudoLegalEp p BB_ALL BB_ALL).filter (moveIsLegal p)).any
      (fun m => m.toSq == epSq)

end Position

/-- A board as the engine sees it: the current position plus the move
stack. Each stack entry holds the position BEFORE a move together with
that move, so `pop` restores the previous state exactly as the library's
`Board.pop` does. -/
structure Board where
  pos : Position
  hist : List (Position × Move)
deriving DecidableEq, Repr

namespace Board

/-- Push a move (`Board.push`): save the current position on the stack
and apply the move. -/
def push (b : Board) (m : Move) : Board :=
  ⟨b.pos.applyMove m, (b.pos, m) :: b.hist⟩

/-- Pop the last move (`Board.pop`), restoring the previous position. -/
def pop (b : Board) : Board :=
  match b.hist with
  | [] => b
  | (p, _) :: h => ⟨p, h⟩

/-- A board with no history, as produced from a FEN. -/
def ofPos (p : Position) : Board := ⟨p, []⟩

/-- Repetition key of a position, encoded injectively as a natural
number (the tuple `_transposition_key` returns). -/
def transpositionKeyOf (p : Position) : Nat :=
  let epPart := if p.hasLegalEnPassant then (p.ep.getD 64) + 1 else 0
  ((((((((((p.pawns * 2 ^ 64 + p.knights) * 2 ^ 64 + p.bishops) * 2 ^ 64 +
    p.rooks) * 2 ^ 64 + p.queens) * 2 ^ 64 + p.kings) * 2 ^ 64 +
    p.occWhite) * 2 ^ 64 + p.occBlack) * 2 + (if p.turn then 1 else 0)) * 2 ^ 64 +
    p.castling) * 128 + epPart)

/-- Whether a move made from position `p` is irreversible
(`is_irreversible`): it zeroes the halfmove clock, reduces castling
rights, or leaves behind a position with a legal en passant. -/
def isIrreversible (p : Position) (m : Move) : Bool :=
  p.isZeroing m ||
  (p.cleanCastlingRights &&& bbNot ((p.applyMove m).cleanCastlingRights) != 0) ||
  p.hasLegalEnPassant

/-- Walk of the reversible tail of the stack counting occurrences of
`key`; mirrors the pop-and-compare loop of `Board.is_repetition`. -/
def countRepetitions (key : Nat) : List (Position × Move) → Nat
  | [] => 0
  | (p, m) :: rest =>
    if isIrreversible p m then 0
    else (if transpositionKeyOf p == key then 1 else 0) + countRepetitions key rest

/-- Repetition test (`Board.is_repetition(count)`): the current position
occurred at least `count` times, counting the present occurrence and
scanning only the reversible tail of the move stack. -/
def isRepetition (b : Board) (count : Nat) : Bool :=
  decide (1 + countRepetitions (transpositionKeyOf b.pos) b.hist ≥ count)

/-- Fifty-move-rule state (`_is_halfmoves(n)` /`is_fifty_moves`): clock
at least `n` with at least one legal move. -/
def isHalfmoves (b : Board) (n : Nat) : Bool :=
  decide (b.pos.halfmove ≥ n) && !(Position.legalMoves b.pos).isEmpty

/-- Claimable fifty-move draw (`can_claim_fifty_moves`): either the rule
already applies, or the clock is at 99 and some non-zeroing legal move
reaches it. -/
def canClaimFiftyMoves (b : Board) : Bool :=
  if isHalfmoves b 100 then true
  else if b.pos.halfmove ≥ 99 then
    (Position.legalMoves b.pos).any (fun m =>
      !b.pos.isZeroing m && isHalfmoves (b.push m) 100)
  else false

/-- Occurrence count of `key` among the current position and the
reversible tail of the stack (the `transpositions` counter built by
`can_claim_threefold_repetition`). -/
def seenCount (b : Board) (key : Nat) : Nat :=
  (if transpositionKeyOf b.pos == key then 1 else 0) +
    countRepetitions key b.hist

/-- Claimable threefold repetition (`can_claim_threefold_repetition`):
the current position occurred three times already, or some legal move
reaches a position that occurred twice. -/
def canClaimThreefoldRepetition (b : Board) : Bool :=
  if seenCount b (transpositionKeyOf b.pos) ≥ 3 then true
  else
    (Position.legalMoves b.pos).any (fun m =>
      seenCount b (transpositionKeyOf (b.pos.applyMove m)) ≥ 2)

/-- Claimable draw (`can_claim_draw`). -/
def canClaimDraw (b : Board) : Bool :=
  canClaimFiftyMoves b || canClaimThreefoldRepetition b

/-- Game over with draw claims disabled (`is_game_over(claim_draw=False)`):
checkmate, insufficient material, no legal moves (stalemate), the
seventy-five-move rule, or fivefold repetition. -/
def isGameOver (b : Board) : Bool :=
  b.pos.isCheckmate || b.pos.isInsufficientMaterial ||
  (Position.legalMoves b.pos).isEmpty || isHalfmoves b 150 || isRepetition b 5

end Board

/-!
The engine: class `MinimaxAgent` of `agent_minimax.py`.
-/

/-- Exact score entry flag (`TT_EXACT`). -/
def TT_EXACT : Nat := 0

/-- Lower-bound entry flag (`TT_LOWERBOUND`). -/
def TT_LOWERBOUND : Nat := 1

/-- Upper-bound entry flag (`TT_UPPERBOUND`). -/
def TT_UPPERBOUND : Nat := 2

/-- Transposition-table entry: the dict
`{'score', 'depth', 'flag', 'best_move'}` the source stores. -/
structure TTEntry where
  score : Int
  depth : Nat
  flag : Nat
  best_move : Option Move
deriving DecidableEq, Repr

/-- An unbalanced binary search tree keyed by `Nat`, the embedding of the
Python `dict`s used for the transposition table and the history table. -/
inductive NatMap (α : Type) where
  | leaf
  | node (l : NatMap α) (k : Nat) (v : α) (r : NatMap α)
deriving Repr

namespace NatMap

/-- Lookup (`dict.get` / `in`). -/
def find? : NatMap α → Nat → Option α
  | .leaf, _ => none
  | .node l k v r, key =>
    if key < k then l.find? key else if k < key then r.find? key else some v

/-- Insert or overwrite (`dict[key] = value`). -/
def insert : NatMap α → Nat → α → NatMap α
  | .leaf, key, val => .node .leaf key val .leaf
  | .node l k v r, key, val =>
    if key < k then .node (l.insert key val) k v r
    else if k < key then .node l k v (r.insert key val)
    else .node l key val r

end NatMap

/-- Engine state: the mutable fields of `MinimaxAgent`. The killer table
is a 128-entry list of (primary, secondary) pairs; the history table maps
`from_square * 64 + to_square` to its accumulated bonus. -/
structure MinimaxAgent where
  depth : Nat
  transposition_table : NatMap TTEntry
  killer_moves : List (Option Move × Option Move)
  history_table : NatMap Nat
  nodes_searched : Nat
  tt_hits : Nat
  tt_misses : Nat
  tt_cutoffs : Nat
  alpha_cutoffs : Nat
  quiescence_nodes : Nat
deriving Repr

namespace MinimaxAgent

/-- Constructor (`MinimaxAgent.__init__`): empty tables, zero counters,
128 empty killer slots. -/
def new (depth : Nat := 2) : MinimaxAgent :=
  { depth := depth
    transposition_table := .leaf
    killer_moves := List.replicate 128 (none, none)
    history_table := .leaf
    nodes_searched := 0
    tt_hits := 0
    tt_misses := 0
    tt_cutoffs := 0
    alpha_cutoffs := 0
    quiescence_nodes := 0 }

/-- Reset the transposition table, killer moves, and history table
(`clear_tt`), to be called once at the start of a new game. -/
def clear_tt (E : MinimaxAgent) : MinimaxAgent :=
  { E with
    transposition_table := .leaf
    killer_moves := List.replicate 128 (none, none)
    history_table := .leaf }

/-- History-table read, defaulting to 0 like a Python
`defaultdict`-style table initialized with zeros. -/
def historyAt (E : MinimaxAgent) (f t : Nat) : Nat :=
  (E.history_table.find? (f * 64 + t)).getD 0

/-- Killer slots for a ply (both `none` outside the 128-entry table). -/
def killersAt (E : MinimaxAgent) (ply : Nat) : Option Move × Option Move :=
  (E.killer_moves.drop ply).headD (none, none)

end MinimaxAgent

/-- Phase weight of the piece on one square (0 on empty squares). -/
def phaseWeightAt (p : Position) (sq : Nat) : Nat :=
  match p.pieceTypeAt sq with
  | some t => phase_values t
  | none => 0

/-- Game-phase raw sum before clamping: the loop of
`calculate_game_phase` accumulating `phase_values` over the piece map. -/
def phase_sum (p : Position) : Nat :=
  (squaresAsc.map (phaseWeightAt p)).sum

/-- Game phase (`calculate_game_phase`): 0 = endgame, 24 = opening;
promotions can push the raw sum above 24 so it is capped. -/
def calculate_game_phase (p : Position) : Nat := min (phase_sum p) 24

/-- Middlegame table for a piece kind (the dispatch chain in
`evaluate_board`). -/
def mgTableOf : PieceType → List Int
  | .pawn => PAWN_MG
  | .knight => KNIGHT_MG
  | .bishop => BISHOP_MG
  | .rook => ROOK_MG
  | .queen => QUEEN_MG
  | .king => KING_MG

/-- Endgame table for a piece kind. -/
def egTableOf : PieceType → List Int
  | .pawn => PAWN_EG
  | .knight => KNIGHT_EG
  | .bishop => BISHOP_EG
  | .rook => ROOK_EG
  | .queen => QUEEN_EG
  | .king => KING_EG

/-- Table lookup at a square index. -/
def pstAt (table : List Int) (sq : Nat) : Int := table.getD sq 0

/-- Middlegame accumulator of `evaluate_board`: PeSTO material plus PST
value for every piece, positive for White, negative for Black, with
Black's squares vertically mirrored before lookup. -/
def mg_score (p : Position) : Int :=
  (squaresAsc.map (fun sq =>
    match p.pieceTypeAt sq, p.colorAt sq with
    | some t, some c =>
      let v := PIECE_VALUE_MG t + pstAt (mgTableOf t) (if c then sq else square_mirror sq)
      if c then v else -v
    | _, _ => 0)).sum

/-- Endgame accumulator of `evaluate_board`. -/
def eg_score (p : Position) : Int :=
  (squaresAsc.map (fun sq =>
    match p.pieceTypeAt sq, p.colorAt sq with
    | some t, some c =>
      let v := PIECE_VALUE_EG t + pstAt (egTableOf t) (if c then sq else square_mirror sq)
      if c then v else -v
    | _, _ => 0)).sum

/-- Tempo bonus for the side to move (`TEMPO_BONUS`). -/
def TEMPO_BONUS : Int := 10

/-- An exact rational `num / den`, the value Python's float arithmetic
carries through `evaluate_board`'s tapered blend. For every reachable
score magnitude (a few tens of thousands of centipawns against the
denominator 24) the double-precision float of `total_score` determines
the same `int(...)` result as this exact rational, so the float pathway
is embedded by exact rational arithmetic. -/
structure PyFloat where
  num : Int
  den : Int
deriving DecidableEq, Repr

/-- Python float division `a / n` of integers (exact rational model). -/
def floatDiv (a b : Int) : PyFloat := ⟨a, b⟩

/-- Adding an integer to a Python float (`total_score += TEMPO_BONUS`). -/
def floatAddInt (q : PyFloat) (t : Int) : PyFloat := ⟨q.num + t * q.den, q.den⟩

/-- Subtracting an integer from a Python float. -/
def floatSubInt (q : PyFloat) (t : Int) : PyFloat := ⟨q.num - t * q.den, q.den⟩

/-- Python's `int(...)` on a float: truncation toward zero, which is
`Int.tdiv` on the exact rational. -/
def pyInt (q : PyFloat) : Int := Int.tdiv q.num q.den

/-- Static evaluation (`evaluate_board`): mate and draw terminal scores,
then the tapered PeSTO blend `(mg * phase + eg * (24 - phase)) / 24`
(float division then `int(...)` truncation) plus the tempo bonus. -/
def evaluate_board (p : Position) (ply_from_root : Nat) : Int :=
  if p.isCheckmate then
    if p.turn then -100000 + (ply_from_root : Int) else 100000 - (ply_from_root : Int)
  else if p.isStalemate || p.isInsufficientMaterial then 0
  else
    let game_phase := calculate_game_phase p
    let total := floatDiv
      (mg_score p * (game_phase : Int) + eg_score p * (24 - (game_phase : Int))) 24
    let total := if p.turn then floatAddInt total TEMPO_BONUS
      else floatSubInt total TEMPO_BONUS
    pyInt total

/-- Move-ordering score (`score_move`): MVV-LVA for captures, a promotion
bonus, killer-move bonuses and the history score for quiet moves. -/
def score_move (E : MinimaxAgent) (p : Position) (m : Move) (ply : Nat) : Int :=
  let score : Int := 0
  let score := if p.isCapture m then
      let victim : Option PieceType :=
        match p.pieceTypeAt m.toSq with
        | some v => some v
        | none => if p.isEnPassant m then some .pawn else none
      match victim with
      | some v =>
        let s := score + piece_values v * 10
        match p.pieceTypeAt m.fromSq with
        | some a => s - piece_values a
        | none => s
      | none => score
    else score
  let score := if m.promotion.isSome then score + 9000 else score
  let score := if !(p.isCapture m) && m.promotion.isNone then
      if ply < E.killer_moves.length then
        if some m == (E.killersAt ply).1 then score + 900000
        else if some m == (E.killersAt ply).2 then score + 800000
        else score
      else score
    else score
  if !(p.isCapture m) && m.promotion.isNone then
    score + (E.historyAt m.fromSq m.toSq : Int)
  else score

/-- Insert a keyed move into a descending-sorted list, before the first
element whose key is not larger; with `sortPairsDesc` this implements a
stable descending sort, matching Python's stable
`sorted(..., reverse=True)` / `list.sort(..., reverse=True)`. -/
def insertPairDesc (x : Move × Int) : List (Move × Int) → List (Move × Int)
  | [] => [x]
  | y :: ys => if y.2 > x.2 then y :: insertPairDesc x ys else x :: y :: ys

/-- Stable descending insertion sort on (move, key) pairs. -/
def sortPairsDesc : List (Move × Int) → List (Move × Int)
  | [] => []
  | x :: xs => insertPairDesc x (sortPairsDesc xs)

/-- Stable descending sort of moves by a key, with the key computed once
per move as Python's decorate-sort does. -/
def sortMovesDesc (key : Move → Int) (ms : List Move) : List Move :=
  (sortPairsDesc (ms.map (fun m => (m, key m)))).map (fun x => x.1)

/-!
Counter updates (the `self.xxx += 1` statements).
-/

/-- Increment `nodes_searched`. -/
def incNodes (E : MinimaxAgent) : MinimaxAgent :=
  { E with nodes_searched := E.nodes_searched + 1 }

/-- Increment `quiescence_nodes`. -/
def incQNodes (E : MinimaxAgent) : MinimaxAgent :=
  { E with quiescence_nodes := E.quiescence_nodes + 1 }

/-- Increment `tt_hits`. -/
def incTTHits (E : MinimaxAgent) : MinimaxAgent :=
  { E with tt_hits := E.tt_hits + 1 }

/-- Increment `tt_misses`. -/
def incTTMisses (E : MinimaxAgent) : MinimaxAgent :=
  { E with tt_misses := E.tt_misses + 1 }

/-- Increment `tt_cutoffs`. -/
def incTTCutoffs (E : MinimaxAgent) : MinimaxAgent :=
  { E with tt_cutoffs := E.tt_cutoffs + 1 }

/-- Increment `alpha_cutoffs`. -/
def incAlphaCutoffs (E : MinimaxAgent) : MinimaxAgent :=
  { E with alpha_cutoffs := E.alpha_cutoffs + 1 }

/-- Reset the per-depth counters (`select_move`'s per-iteration reset). -/
def resetCounters (E : MinimaxAgent) : MinimaxAgent :=
  { E with
    nodes_searched := 0
    tt_hits := 0
    tt_misses := 0
    tt_cutoffs := 0
    alpha_cutoffs := 0
    quiescence_nodes := 0 }

/-- Zobrist key of a position (`chess.polyglot.zobrist_hash`). The
polyglot hash is a 64-bit key over (pieces, turn, castling rights,
en-passant file when a side-to-move pawn could capture); the engine
relies only on its stability across equivalent positions, so it is
embedded as an injective encoding of exactly those components. -/
def zobrist_hash (p : Position) : Nat :=
  let epPart : Nat :=
    match p.ep with
    | some epSq =>
      if pawnAttacksMask (!p.turn) epSq &&& p.pawns &&& p.occCo p.turn != 0 then
        epSq + 1
      else 0
    | none => 0
  ((((((((((p.pawns * 2 ^ 64 + p.knights) * 2 ^ 64 + p.bishops) * 2 ^ 64 +
    p.rooks) * 2 ^ 64 + p.queens) * 2 ^ 64 + p.kings) * 2 ^ 64 +
    p.occWhite) * 2 ^ 64 + p.occBlack) * 2 + (if p.turn then 1 else 0)) * 2 ^ 64 +
    p.castling) * 128 + epPart)

/-- Mate-score normalization before a TT store: convert root-relative to
position-relative (`stored_score` adjustment in `minimax`). -/
def normalizeMate (s : Int) (ply : Nat) : Int :=
  if s > 90000 then s + ply else if s < -90000 then s - ply else s

/-- Mate-score de-normalization on a TT probe: convert position-relative
back to root-relative. -/
def denormalizeMate (s : Int) (ply : Nat) : Int :=
  if s > 90000 then s - ply else if s < -90000 then s + ply else s

/-- The transposition-table replacement decision (`should_replace` in
`minimax`): insert unconditionally on a miss; replace shallower entries;
at equal or greater existing depth, replace only an inexact entry by an
exact one. -/
def tt_should_replace (old : Option TTEntry) (newDepth : Nat) (newFlag : Nat) : Bool :=
  match old with
  | none => true
  | some o =>
    if o.depth > newDepth then newFlag == TT_EXACT && o.flag != TT_EXACT
    else if o.depth == newDepth then newFlag == TT_EXACT && o.flag != TT_EXACT
    else true

/-- Store into the transposition table under the replacement policy. -/
def tt_store (tt : NatMap TTEntry) (key : Nat) (e : TTEntry) : NatMap TTEntry :=
  if tt_should_replace (tt.find? key) e.depth e.flag then tt.insert key e else tt

/-- Transposition-table probe of `minimax` (skipped at the root): counts
hits and misses, and when an entry of sufficient depth exists either
returns its (de-normalized) score outright for an Exact entry, tightens
`alpha`/`beta` for bound entries, or returns the offending bound on an
induced cutoff. The result is `(agent, early-return score?, alpha, beta)`. -/
def ttProbe (E : MinimaxAgent) (key : Nat) (depth : Nat) (alpha beta : Int)
    (ply : Nat) : MinimaxAgent × Option Int × Int × Int :=
  if ply > 0 then
    match E.transposition_table.find? key with
    | some entry =>
      let E := incTTHits E
      if entry.depth ≥ depth then
        let tt_score := denormalizeMate entry.score ply
        if entry.flag == TT_EXACT then (incTTCutoffs E, some tt_score, alpha, beta)
        else
          let alpha := if entry.flag == TT_LOWERBOUND then max alpha tt_score else alpha
          let beta := if entry.flag == TT_UPPERBOUND then min beta tt_score else beta
          if alpha ≥ beta then
            (incTTCutoffs E,
             some (if entry.flag == TT_LOWERBOUND then alpha else beta), alpha, beta)
          else (E, none, alpha, beta)
      else (E, none, alpha, beta)
    | none => (incTTMisses E, none, alpha, beta)
  else (incTTMisses E, none, alpha, beta)

/-- Killer and history updates on a quiet beta cutoff: `history` gains
`depth * depth`, and the killer pair for the ply is shifted when the move
differs from the primary killer. -/
def updateKillersHistory (E : MinimaxAgent) (m : Move) (depth ply : Nat) : MinimaxAgent :=
  let E := { E with
    history_table := E.history_table.insert (m.fromSq * 64 + m.toSq)
      (E.historyAt m.fromSq m.toSq + depth * depth) }
  if ply < E.killer_moves.length then
    let pair := E.killersAt ply
    if some m != pair.1 then
      { E with killer_moves := E.killer_moves.set ply (some m, pair.1) }
    else E
  else E

/-- Splice the TT move to the front and sort the rest, the move-ordering
block of `minimax` (when no TT move is known the whole list is sorted). -/
def orderMinimaxMoves (E : MinimaxAgent) (p : Position) (key : Nat) (ply : Nat) :
    List Move :=
  let moves := Position.legalMoves p
  let tt_move : Option Move :=
    match E.transposition_table.find? key with
    | some entry => entry.best_move
    | none => none
  match tt_move with
  | some tm =>
    let spliced := if moves.contains tm then tm :: moves.erase tm else moves
    match spliced with
    | [] => []
    | h :: t => h :: sortMovesDesc (fun m => score_move E p m ply) t
  | none => sortMovesDesc (fun m => score_move E p m ply) moves

/-- TT store step after the move loop of `minimax`: derive the flag from
the TRUE original bounds, normalize mate scores, and store under the
replacement policy. -/
def ttStoreAfterSearch (E : MinimaxAgent) (key : Nat) (depth : Nat)
    (best_eval : Int) (alpha_orig beta_orig : Int) (ply : Nat)
    (best_move : Option Move) : MinimaxAgent :=
  let flag := if best_eval ≤ alpha_orig then TT_UPPERBOUND
    else if best_eval ≥ beta_orig then TT_LOWERBOUND
    else TT_EXACT
  let stored := normalizeMate best_eval ply
  { E with transposition_table :=
      tt_store E.transposition_table key ⟨stored, depth, flag, best_move⟩ }

/-- The maximizer's move loop in quiescence, over the sorted tactical
moves. `rec` is the recursive quiescence call at `qs_depth + 1` (beta is
fixed for the node). Returns `(early beta-cutoff result?, alpha, agent,
board)`. Delta pruning skips hopeless non-promotion captures. -/
def qsLoopMax (rec : MinimaxAgent → Board → Int → Int × MinimaxAgent × Board)
    (stand_pat : Int) (phase : Nat) (in_check : Bool) (beta : Int) :
    List Move → Int → MinimaxAgent → Board → Option Int × Int × MinimaxAgent × Board
  | [], alpha, E, b => (none, alpha, E, b)
  | m :: rest, alpha, E, b =>
    let prune :=
      if b.pos.isCapture m && m.promotion.isNone && !in_check && phase > 4 then
        let victim : Option PieceType :=
          match b.pos.pieceTypeAt m.toSq with
          | some v => some v
          | none => if b.pos.isEnPassant m then some .pawn else none
        match victim with
        | some v => stand_pat + piece_values v + 100 < alpha
        | none => false
      else false
    if prune then qsLoopMax rec stand_pat phase in_check beta rest alpha E b
    else
      let b1 := b.push m
      let (score, E1, b2) := rec E b1 alpha
      let b3 := b2.pop
      if score ≥ beta then (some beta, alpha, E1, b3)
      else
        let alpha := if score > alpha then score else alpha
        qsLoopMax rec stand_pat phase in_check beta rest alpha E1 b3

/-- The minimizer's move loop in quiescence, symmetric to `qsLoopMax`
(alpha is fixed for the node, beta is threaded). -/
def qsLoopMin (rec : MinimaxAgent → Board → Int → Int × MinimaxAgent × Board)
    (stand_pat : Int) (phase : Nat) (in_check : Bool) (alpha : Int) :
    List Move → Int → MinimaxAgent → Board → Option Int × Int × MinimaxAgent × Board
  | [], beta, E, b => (none, beta, E, b)
  | m :: rest, beta, E, b =>
    let prune :=
      if b.pos.isCapture m && m.promotion.isNone && !in_check && phase > 4 then
        let victim : Option PieceType :=
          match b.pos.pieceTypeAt m.toSq with
          | some v => some v
          | none => if b.pos.isEnPassant m then some .pawn else none
        match victim with
        | some v => stand_pat - piece_values v - 100 > beta
        | none => false
      else false
    if prune then qsLoopMin rec stand_pat phase in_check alpha rest beta E b
    else
      let b1 := b.push m
      let (score, E1, b2) := rec E b1 beta
      let b3 := b2.pop
      if score ≤ alpha then (some alpha, beta, E1, b3)
      else
        let beta := if score < beta then score else beta
        qsLoopMin rec stand_pat phase in_check alpha rest beta E1 b3

/-- Quiescence search (`quiescence`): tactical-only alpha-beta with
stand-pat, delta pruning, check evasions, and split depth caps (6 in
check, 12 otherwise). `fuel` is an explicit structural-recursion bound;
called with `fuel = 13` and `qs_depth = 0` it can never run out before
the depth caps fire, so the `fuel = 0` equation is unreachable. The
`max_qs_depth` parameter is carried but never read, as in the source. -/
def quiescence : Nat → MinimaxAgent → Board → Int → Int → Nat → Nat → Nat →
    Int × MinimaxAgent × Board
  | 0, E, b, _, _, ply, _, _ =>
    (evaluate_board b.pos ply, incQNodes (incNodes E), b)
  | fuel + 1, E, b, alpha, beta, ply, qs_depth, max_qs_depth =>
    let E := incQNodes (incNodes E)
    let cap := if b.pos.isCheck then 6 else 12
    if qs_depth ≥ cap then (evaluate_board b.pos ply, E, b)
    else if b.isGameOver then (evaluate_board b.pos ply, E, b)
    else
      let in_check := b.pos.isCheck
      let phase := calculate_game_phase b.pos
      let stand_pat := evaluate_board b.pos ply
      if b.pos.turn then
        if !in_check && stand_pat ≥ beta then (beta, E, b)
        else
          let alpha := if !in_check && stand_pat > alpha then stand_pat else alpha
          let tactical := if in_check then Position.legalMoves b.pos
            else (Position.legalMoves b.pos).filter
              (fun m => b.pos.isCapture m || m.promotion.isSome)
          if tactical.isEmpty then (stand_pat, E, b)
          else
            let sorted := sortMovesDesc (fun m => score_move E b.pos m ply) tactical
            let r := qsLoopMax
              (fun E b a => quiescence fuel E b a beta (ply + 1) (qs_depth + 1) max_qs_depth)
              stand_pat phase in_check beta sorted alpha E b
            match r with
            | (some early, _, E1, b1) => (early, E1, b1)
            | (none, alpha1, E1, b1) => (alpha1, E1, b1)
      else
        if !in_check && stand_pat ≤ alpha then (alpha, E, b)
        else
          let beta := if !in_check && stand_pat < beta then stand_pat else beta
          let tactical := if in_check then Position.legalMoves b.pos
            else (Position.legalMoves b.pos).filter
              (fun m => b.pos.isCapture m || m.promotion.isSome)
          if tactical.isEmpty then (stand_pat, E, b)
          else
            let sorted := sortMovesDesc (fun m => score_move E b.pos m ply) tactical
            let r := qsLoopMin
              (fun E b bt => quiescence fuel E b alpha bt (ply + 1) (qs_depth + 1) max_qs_depth)
              stand_pat phase in_check alpha sorted beta E b
            match r with
            | (some early, _, E1, b1) => (early, E1, b1)
            | (none, beta1, E1, b1) => (beta1, E1, b1)

/-- The maximizer's move loop of `minimax`: make each move, recurse (via
`rec`, the depth-reduced call), unmake, track the best, raise `alpha`,
and on a beta cutoff bump the cutoff counter, credit killers/history for
quiet moves, and stop. Returns `(max_eval, best_move, agent, board)`. -/
def minimaxLoopMax (rec : MinimaxAgent → Board → Int → Int → Int × MinimaxAgent × Board)
    (depth ply : Nat) :
    List Move → Int → Int → Int → Option Move → MinimaxAgent → Board →
    Int × Option Move × MinimaxAgent × Board
  | [], _, _, max_eval, best, E, b => (max_eval, best, E, b)
  | m :: rest, alpha, beta, max_eval, best, E, b =>
    let b1 := b.push m
    let (ev, E1, b2) := rec E b1 alpha beta
    let b3 := b2.pop
    let max_eval' := if ev > max_eval then ev else max_eval
    let best' := if ev > max_eval then some m else best
    let alpha' := max alpha ev
    if beta ≤ alpha' then
      let E2 := incAlphaCutoffs E1
      let E3 := if !(b3.pos.isCapture m) && m.promotion.isNone then
          updateKillersHistory E2 m depth ply else E2
      (max_eval', best', E3, b3)
    else minimaxLoopMax rec depth ply rest alpha' beta max_eval' best' E1 b3

/-- The minimizer's move loop of `minimax`, symmetric to
`minimaxLoopMax`. -/
def minimaxLoopMin (rec : MinimaxAgent → Board → Int → Int → Int × MinimaxAgent × Board)
    (depth ply : Nat) :
    List Move → Int → Int → Int → Option Move → MinimaxAgent → Board →
    Int × Option Move × MinimaxAgent × Board
  | [], _, _, min_eval, best, E, b => (min_eval, best, E, b)
  | m :: rest, alpha, beta, min_eval, best, E, b =>
    let b1 := b.push m
    let (ev, E1, b2) := rec E b1 alpha beta
    let b3 := b2.pop
    let min_eval' := if ev < min_eval then ev else min_eval
    let best' := if ev < min_eval then some m else best
    let beta' := min beta ev
    if beta' ≤ alpha then
      let E2 := incAlphaCutoffs E1
      let E3 := if !(b3.pos.isCapture m) && m.promotion.isNone then
          updateKillersHistory E2 m depth ply else E2
      (min_eval', best', E3, b3)
    else minimaxLoopMin rec depth ply rest alpha beta' min_eval' best' E1 b3

/-- The recursive search (`minimax`): repetition/claimable-draw gate
(only after the root), terminal evaluation, quiescence at depth 0, TT
probe (skipped at the root), ordered move loop with alpha-beta, and the
TT store with flag derivation from the original bounds. Returns
`(score, agent, board)`. -/
def minimax : Nat → MinimaxAgent → Board → Int → Int → Nat →
    Int × MinimaxAgent × Board
  | depth, E, b, alpha, beta, ply =>
    if decide (ply > 0) && (b.isRepetition 2 || b.canClaimDraw) then (0, E, b)
    else if b.isGameOver then (evaluate_board b.pos ply, incNodes E, b)
    else
      match depth with
      | 0 => quiescence 13 E b alpha beta ply 0 16
      | d + 1 =>
        let E := incNodes E
        let alpha_orig := alpha
        let beta_orig := beta
        let key := zobrist_hash b.pos
        let (E, probed, alpha, beta) := ttProbe E key (d + 1) alpha beta ply
        match probed with
        | some v => (v, E, b)
        | none =>
          let ordered := orderMinimaxMoves E b.pos key ply
          if b.pos.turn then
            let (best_eval, best_move, E1, b1) :=
              minimaxLoopMax (fun E c a bt => minimax d E c a bt (ply + 1))
                (d + 1) ply ordered alpha beta (-999999) none E b
            let E2 := ttStoreAfterSearch E1 key (d + 1) best_eval alpha_orig
              beta_orig ply best_move
            (best_eval, E2, b1)
          else
            let (best_eval, best_move, E1, b1) :=
              minimaxLoopMin (fun E c a bt => minimax d E c a bt (ply + 1))
                (d + 1) ply ordered alpha beta 999999 none E b
            let E2 := ttStoreAfterSearch E1 key (d + 1) best_eval alpha_orig
              beta_orig ply best_move
            (best_eval, E2, b1)

/-!
The iterative-deepening controller (`select_move`). Wall-clock time
enters the source only through comparisons of the form
`time.time() - start_time >= hard_time_limit`; these are abstracted into
a boolean oracle consumed check by check (fixed-depth mode performs no
checks, exactly as in the source, where `hard_time_limit is None`
short-circuits them).
-/

/-- State threaded through the root-move loop of one depth iteration. -/
structure RootState where
  alpha : Int
  beta : Int
  best_move : Option Move
  best_value : Int
  searched : Nat
  agent : MinimaxAgent
  board : Board
  tIdx : Nat
deriving Repr

/-- The root call for one move: push it, search the child with
`ply_from_root = 0` (as the source does), pop. -/
def rootSearchChild (current_depth : Nat) (E : MinimaxAgent) (b : Board)
    (alpha beta : Int) (m : Move) : Int × MinimaxAgent × Board :=
  let b1 := b.push m
  let (v, E1, b2) := minimax (current_depth - 1) E b1 alpha beta 0
  (v, E1, b2.pop)

/-- Initial root-loop state for a window. -/
def initRootState (alpha beta : Int) (E : MinimaxAgent) (b : Board) (tIdx : Nat)
    (white : Bool) : RootState :=
  { alpha := alpha, beta := beta, best_move := none,
    best_value := if white then -999999 else 999999, searched := 0,
    agent := E, board := b, tIdx := tIdx }

/-- The root-move loop of `select_move`: in timed mode, a time check may
break out once the minimum depth (5) has been passed; each searched move
updates the depth-best and tightens one bound (there is no beta cutoff at
the root). -/
def searchRootMoves (oracle : Nat → Bool) (timed : Bool) (current_depth : Nat) :
    List Move → RootState → RootState
  | [], st => st
  | m :: rest, st =>
    let stop := if timed then oracle st.tIdx && decide (current_depth > 5) else false
    let st := if timed then { st with tIdx := st.tIdx + 1 } else st
    if stop then st
    else
      let (v, E1, b1) := rootSearchChild current_depth st.agent st.board st.alpha st.beta m
      let white := b1.pos.turn
      let improved := if white then v > st.best_value else v < st.best_value
      let bv := if improved then v else st.best_value
      let bm := if improved then some m else st.best_move
      let alpha := if white then max st.alpha bv else st.alpha
      let beta := if white then st.beta else min st.beta bv
      searchRootMoves oracle timed current_depth rest
        { alpha := alpha, beta := beta, best_move := bm, best_value := bv,
          searched := st.searched + 1, agent := E1, board := b1, tIdx := st.tIdx }

/-- Aspiration-window selection (`select_move` step 3): a ±50 window
around the previous completed score from depth 2 on, else the full
window; the boolean records whether aspiration is in effect. -/
def aspirationWindow (current_depth : Nat) (best_value : Option Int) :
    Int × Int × Bool :=
  match best_value with
  | some s =>
    if current_depth ≥ 2 then (s - 50, s + 50, true) else (-100000, 100000, false)
  | none => (-100000, 100000, false)

/-- Root move ordering of `select_move`: splice the TT move to the front
when known; the first move always stays first and only the tail is
sorted (unlike in `minimax`). -/
def orderRootMoves (E : MinimaxAgent) (p : Position) (moves : List Move) : List Move :=
  let key := zobrist_hash p
  let spliced :=
    match E.transposition_table.find? key with
    | some entry =>
      match entry.best_move with
      | some tm => if moves.contains tm then tm :: moves.erase tm else moves
      | none => moves
    | none => moves
  match spliced with
  | [] => []
  | h :: t => h :: sortMovesDesc (fun m => score_move E p m 0) t

/-- Result of one depth iteration of `select_move`. -/
structure DepthResult where
  best_move : Option Move
  best_value : Int
  completed : Bool
  agent : MinimaxAgent
  board : Board
  tIdx : Nat
  noMoves : Bool
deriving Repr

/-- One depth iteration of `select_move`: reset the counters, enumerate
and order the root moves (returning the bare-`None` result when there are
none), search them under the aspiration window, and on a completed
iteration that failed low or high re-search the entire depth exactly once
with the full window. -/
def runDepth (oracle : Nat → Bool) (timed : Bool) (current_depth : Nat)
    (prev : Option Int) (E : MinimaxAgent) (b : Board) (tIdx : Nat) : DepthResult :=
  let E := resetCounters E
  let legal := Position.legalMoves b.pos
  if legal.isEmpty then
    ⟨none, 0, false, E, b, tIdx, true⟩
  else
    let ordered := orderRootMoves E b.pos legal
    let w := aspirationWindow current_depth prev
    let r := searchRootMoves oracle timed current_depth ordered
      (initRootState w.1 w.2.1 E b tIdx b.pos.turn)
    let completed := decide (r.searched ≥ legal.length)
    if completed && w.2.2 &&
        (decide (r.best_value ≤ w.1) || decide (r.best_value ≥ w.2.1)) then
      let r2 := searchRootMoves oracle false current_depth ordered
        (initRootState (-100000) 100000 r.agent r.board r.tIdx b.pos.turn)
      ⟨r2.best_move, r2.best_value, decide (r2.searched ≥ legal.length),
        r2.agent, r2.board, r2.tIdx, false⟩
    else
      ⟨r.best_move, r.best_value, completed, r.agent, r.board, r.tIdx, false⟩

/-- The iterative-deepening loop of `select_move`: run depths 1, 2, ...
with the previous committed score seeding the aspiration window, commit
only completed iterations, break out of fixed mode on an incomplete
iteration, stop early on a committed mate score, and apply the two
bottom stop conditions (fixed depth 5; in timed mode the minimum depth 5
plus a truthy target depth). -/
def iterDeepen (oracle : Nat → Bool) (timed : Bool) (target_depth : Option Nat) :
    Nat → Nat → Option Move → Option Int → MinimaxAgent → Board → Nat →
    Option (Option Move × Option Int) × MinimaxAgent × Board
  | 0, _, bm, bv, E, b, _ => (some (bm, bv), E, b)
  | fuel + 1, current_depth, bm, bv, E, b, tIdx =>
    let stop := if timed then oracle tIdx && !(decide (current_depth ≤ 5)) else false
    let tIdx := if timed then tIdx + 1 else tIdx
    if stop then (some (bm, bv), E, b)
    else
      let r := runDepth oracle timed current_depth bv E b tIdx
      if r.noMoves then (none, r.agent, r.board)
      else if !timed && !r.completed then (some (bm, bv), r.agent, r.board)
      else
        let commit := r.best_move.isSome && r.completed
        let bm1 := if commit then r.best_move else bm
        let bv1 := if commit then some r.best_value else bv
        if commit &&
            (decide (r.best_value ≥ 90000) || decide (r.best_value ≤ -90000)) then
          (some (bm1, bv1), r.agent, r.board)
        else
          let stopBottom := if !timed then decide (current_depth ≥ 5)
            else r.completed && decide (current_depth ≥ 5) &&
              (match target_depth with
               | some t => !(t == 0) && decide (current_depth ≥ t)
               | none => false)
          if stopBottom then (some (bm1, bv1), r.agent, r.board)
          else iterDeepen oracle timed target_depth fuel (current_depth + 1)
            bm1 bv1 r.agent r.board r.tIdx

/-- The move-selection entry point (`select_move`): pick fixed-depth mode
(phase > 12, depth 5, no time checks) or time-bounded endgame mode
(depth cap 99, minimum depth 5), then iterate. The wall-clock arguments
`time_limit` and `endgame_time_limit` influence the source only through
the oracle's comparisons. Returns Python's value shape: `none` on the
no-legal-moves path, otherwise `some (best move?, best score?)`. -/
def select_move (E : MinimaxAgent) (b : Board) (_time_limit : Int)
    (target_depth : Option Nat) (_endgame_time_limit : Int) (oracle : Nat → Bool) :
    Option (Option Move × Option Int) × MinimaxAgent × Board :=
  let phase := calculate_game_phase b.pos
  let timed := decide (phase ≤ 12)
  let max_depth := if timed then 99 else 5
  iterDeepen oracle timed target_depth max_depth 1 none none E b 0

/-- Modelled from the spec: the reference search of testable property 4,
"a naive minimax (no pruning, no TT, no move ordering) of the same depth
d that uses the same evaluator and the same terminal and leaf rules".
Terminal rule: `is_game_over(claim_draw=False)` positions evaluate via
`evaluate_board`; leaf rule: depth 0 calls the same `quiescence` with the
full window; interior nodes take the max (White) or min (Black) over all
legal moves with no pruning, no transposition table and no ordering. The
agent argument supplies quiescence's read-only ordering context. -/
def naiveMinimax (E : MinimaxAgent) : Nat → Board → Nat → Int
  | depth, b, ply =>
    if b.isGameOver then evaluate_board b.pos ply
    else
      match depth with
      | 0 => (quiescence 13 E b (-100000) 100000 ply 0 16).1
      | d + 1 =>
        let children := (Position.legalMoves b.pos).map
          (fun m => naiveMinimax E d (b.push m) (ply + 1))
        if b.pos.turn then children.foldl max (-999999)
        else children.foldl min 999999

/-!
Concrete positions used by the witnesses and counterexamples.
-/

/-- Build a position from a piece list (square, color, kind). -/
def mkPos (pieces : List (Nat × Bool × PieceType)) (turn : Bool)
    (castling : Nat := 0) (ep : Option Nat := none) (halfmove : Nat := 0) : Position :=
  pieces.foldl
    (fun p x =>
      let (sq, c, t) := x
      let bb := bbSquare sq
      { p with
        pawns := if t = .pawn then p.pawns ||| bb else p.pawns
        knights := if t = .knight then p.knights ||| bb else p.knights
        bishops := if t = .bishop then p.bishops ||| bb else p.bishops
        rooks := if t = .rook then p.rooks ||| bb else p.rooks
        queens := if t = .queen then p.queens ||| bb else p.queens
        kings := if t = .king then p.kings ||| bb else p.kings
        occWhite := if c then p.occWhite ||| bb else p.occWhite
        occBlack := if c then p.occBlack else p.occBlack ||| bb })
    { pawns := 0, knights := 0, bishops := 0, rooks := 0, queens := 0, kings := 0,
      occWhite := 0, occBlack := 0, turn := turn, castling := castling, ep := ep,
      halfmove := halfmove }

/-- FEN `r5k1/5ppp/8/8/8/8/5PPP/6K1`-style back-rank position with BLACK
rook on a1: White to move is checkmated (mirror of the spec's back-rank
scenario). Pieces: black Ra1, white Kg1, white pawns f2 g2 h2, black
Kg8. -/
def posWhiteMated : Position :=
  mkPos [(0, false, .rook), (6, true, .king), (13, true, .pawn), (14, true, .pawn),
         (15, true, .pawn), (62, false, .king)] true

/-- The claim's FEN `6k1/5ppp/8/8/8/8/8/R5K1` after the rook reaches a8:
black Kg8 with pawns f7 g7 h7, white Ra8 and Kg1, Black to move —
checkmate of Black. -/
def posBlackMated : Position :=
  mkPos [(56, true, .rook), (6, true, .king), (53, false, .pawn), (54, false, .pawn),
         (55, false, .pawn), (62, false, .king)] false

/-- The spec's stalemate scenario, FEN `7k/5Q2/6K1/8/8/8/8/8 b`:
black Kh8, white Qf7 and Kg6, Black to move, stalemate. -/
def posStalemate : Position :=
  mkPos [(63, false, .king), (53, true, .queen), (46, true, .king)] false

/-- Bare kings (insufficient material). -/
def posKK : Position :=
  mkPos [(0, true, .king), (63, false, .king)] true

/-- A stalemate with heavy material still on the board (game phase 14,
so `select_move` picks fixed-depth mode): black Kh8 is stalemated by
white Qg6 while white Qa2, Qa3, Ra4 and Kg1 stand clear. Black to move,
no legal moves. -/
def posStalemateHeavy : Position :=
  mkPos [(63, false, .king), (46, true, .queen), (8, true, .queen),
         (16, true, .queen), (24, true, .rook), (6, true, .king)] false

/-- Blocked-pawn micro position: white Ka1 and Pa3 against black Kh8 and
Pa4; both pawns are blocked, so the only legal moves are king moves.
The halfmove clock stands at 99, so every (necessarily quiet) white move
produces a child whose fifty-move draw is claimable. -/
def posBlocked99 : Position :=
  mkPos [(0, true, .king), (16, true, .pawn), (63, false, .king), (24, false, .pawn)]
    true 0 none 99

/-- The same blocked-pawn micro position with a fresh halfmove clock. -/
def posBlocked0 : Position :=
  mkPos [(0, true, .king), (16, true, .pawn), (63, false, .king), (24, false, .pawn)]
    true 0 none 0

/-- Material imbalance: white Ka1 against black Kh8 and Qd5 (non-terminal,
White to move). Black is up a queen, so the tapered blend is negative,
which separates float truncation from floor division. -/
def posDownQueen : Position :=
  mkPos [(0, true, .king), (63, false, .king), (35, false, .queen)] true

/-- The standard starting position with the white e2 pawn replaced by an
extra white queen: the raw phase sum is 28 and is clamped to 24. -/
def posStartExtraQueen : Position :=
  mkPos
    [(0, true, .rook), (1, true, .knight), (2, true, .bishop), (3, true, .queen),
     (4, true, .king), (5, true, .bishop), (6, true, .knight), (7, true, .rook),
     (8, true, .pawn), (9, true, .pawn), (10, true, .pawn), (11, true, .pawn),
     (12, true, .queen), (13, true, .pawn), (14, true, .pawn), (15, true, .pawn),
     (48, false, .pawn), (49, false, .pawn), (50, false, .pawn), (51, false, .pawn),
     (52, false, .pawn), (53, false, .pawn), (54, false, .pawn), (55, false, .pawn),
     (56, false, .rook), (57, false, .knight), (58, false, .bishop), (59, false, .queen),
     (60, false, .king), (61, false, .bishop), (62, false, .knight), (63, false, .rook)]
    true 0x8100000000000081

/-- Remove whatever piece stands on a square (clear its bit everywhere). -/
def removePieceAt (p : Position) (sq : Nat) : Position :=
  let keep := bbNot (bbSquare sq)
  { p with
    pawns := p.pawns &&& keep, knights := p.knights &&& keep,
    bishops := p.bishops &&& keep, rooks := p.rooks &&& keep,
    queens := p.queens &&& keep, kings := p.kings &&& keep,
    occWhite := p.occWhite &&& keep, occBlack := p.occBlack &&& keep }

/-- A time oracle that never reports the limit as exceeded. -/
def oracleNever : Nat → Bool := fun _ => false

/-!
Theorems. Each claim of the specification review is settled by one
theorem below (with a witness where the theorem carries hypotheses, and
a counterexample where the claim fails on the code).
-/

/-!
Claim C2: terminal evaluation.
-/

/-- Claim C2 (confirmed): for every checkmate position `evaluate_board`
returns exactly `-100000 + ply_from_root` when White is to move (White
is mated) and `+100000 - ply_from_root` when Black is to move; every
stalemate position evaluates to 0; and every insufficient-material
position that is not a checkmate evaluates to 0, regardless of material.
(The checkmate guard on the last conjunct reflects the code's test
order; a position that is both insufficient-material and checkmate does
not exist in chess, but the embedding quantifies over all board
states.) -/
theorem C2_evaluate_board_terminal (p : Position) (ply : Nat) :
    (p.isCheckmate = true →
      evaluate_board p ply =
        if p.turn then -100000 + (ply : Int) else 100000 - (ply : Int))
    ∧ (p.isStalemate = true → evaluate_board p ply = 0)
    ∧ (p.isCheckmate = false → p.isInsufficientMaterial = true →
        evaluate_board p ply = 0) := by
  refine ⟨fun h => ?_, fun h => ?_, fun h h2 => ?_⟩
  · simp [evaluate_board, h]
  · have hcm : p.isCheckmate = false := by
      unfold Position.isCheckmate
      unfold Position.isStalemate at h
      rcases Bool.and_eq_true _ _ |>.mp h with ⟨h1, _⟩
      simp_all
    simp [evaluate_board, hcm, h]
  · simp [evaluate_board, h, h2]

/-- Witness for C2 at concrete inputs: the back-rank mate of White
scores `-100000 + 3` at ply 3, the spec's stalemate FEN scores 0, and
bare kings score 0. -/
theorem C2_witness :
    evaluate_board posWhiteMated 3 = -99997 ∧
    evaluate_board posStalemate 0 = 0 ∧
    evaluate_board posKK 5 = 0 := by
  refine ⟨?_, ?_, ?_⟩
  · exact ((C2_evaluate_board_terminal posWhiteMated 3).1 (by decide)).trans (by decide)
  · exact (C2_evaluate_board_terminal posStalemate 0).2.1 (by decide)
  · exact (C2_evaluate_board_terminal posKK 5).2.2 (by decide) (by decide)

/-!
Claim C1: mate-score bands and the back-rank FEN scenario.
-/

/-- Counterexample to claim C1: `posWhiteMated` is a checkmate with
White to move (White is being mated), yet its score is `-100000`, in the
band the claim reserves for "Black is being mated" and far from the
claimed `[+90000, +100000]` band for a mated White. -/
theorem C1_counterexample :
    Position.isCheckmate posWhiteMated = true ∧
    posWhiteMated.turn = true ∧
    evaluate_board posWhiteMated 0 = -100000 ∧
    ¬(90000 ≤ evaluate_board posWhiteMated 0 ∧
      evaluate_board posWhiteMated 0 ≤ 100000) := by
  refine ⟨by decide, by decide, by decide, ?_⟩
  intro h
  have h1 := h.1
  rw [show evaluate_board posWhiteMated 0 = -100000 from by decide] at h1
  omega

/-- Amended claim C1: mate scores in `[+90000, +100000]` indicate that
BLACK is being mated and scores in `[-100000, -90000]` indicate that
WHITE is being mated (for any ply up to 10000, the distance to mate
encoded in the gap to ±100000). -/
theorem C1_amended (p : Position) (ply : Nat) (hply : ply ≤ 10000)
    (h : p.isCheckmate = true) :
    (p.turn = true →
      -100000 ≤ evaluate_board p ply ∧ evaluate_board p ply ≤ -90000)
    ∧ (p.turn = false →
      90000 ≤ evaluate_board p ply ∧ evaluate_board p ply ≤ 100000) := by
  constructor
  · intro ht
    simp [evaluate_board, h, ht]
    omega
  · intro ht
    simp [evaluate_board, h, ht]
    omega

/-- Witness for the amended C1 at the claim's own FEN: after the rook
reaches a8 the back-rank mate of Black (ply 2) scores `+99998`, inside
the positive band. -/
theorem C1_amended_witness :
    evaluate_board posBlackMated 2 = 99998 ∧
    90000 ≤ evaluate_board posBlackMated 2 ∧
    evaluate_board posBlackMated 2 ≤ 100000 :=
  ⟨by decide, (C1_amended posBlackMated 2 (by omega) (by decide)).2 (by decide)⟩

/-!
Claim C5: the no-legal-moves return shape of `select_move`.
-/

/-- Claim C5 (code bug): on a position with no legal moves,
`select_move` returns the bare null (`None`), not the claimed
`(None, None)` pair that its own callers unpack. `posStalemateHeavy` is
a stalemate with game phase 14, so fixed-depth mode runs and hits the
`return None` path on its first iteration. -/
theorem C5_no_legal_moves_returns_bare_none :
    Position.legalMoves posStalemateHeavy = [] ∧
    (select_move (MinimaxAgent.new 5) (Board.ofPos posStalemateHeavy) 45 none 5
      oracleNever).1 = none := by
  constructor
  · decide
  · decide

/-!
Claim C6: the tapered-blend arithmetic.
-/

/-- Counterexample to claim C6: at `posDownQueen` (non-terminal, White
to move, Black up a queen) the value of `evaluate_board` differs from
the claimed floor-division formula
`(mg * phase + eg * (24 - phase)) // 24 + 10`: the code's float
division plus `int()` truncates toward zero, giving one more on the
negative blend. -/
theorem C6_counterexample :
    Position.isCheckmate posDownQueen = false ∧
    Position.isStalemate posDownQueen = false ∧
    Position.isInsufficientMaterial posDownQueen = false ∧
    posDownQueen.turn = true ∧
    evaluate_board posDownQueen 0 ≠
      Int.fdiv (mg_score posDownQueen * (calculate_game_phase posDownQueen : Int) +
        eg_score posDownQueen * (24 - (calculate_game_phase posDownQueen : Int))) 24
        + 10 := by
  refine ⟨by decide, by decide, by decide, by decide, ?_⟩
  decide

/-- Amended claim C6: for every non-terminal position, `evaluate_board`
equals the tapered blend computed with Python float division and
`int(...)` truncation toward zero — that is,
`(mg * phase + eg * (24 - phase) + tempo * 24) tdiv 24` with tempo +10
for White to move and −10 for Black; it exceeds the claimed
floor-division value by exactly one whenever the tempo-adjusted
numerator is negative and not divisible by 24. -/
theorem C6_amended (p : Position) (ply : Nat) (h1 : p.isCheckmate = false)
    (h2 : (p.isStalemate || p.isInsufficientMaterial) = false) :
    evaluate_board p ply =
      Int.tdiv (mg_score p * (calculate_game_phase p : Int) +
        eg_score p * (24 - (calculate_game_phase p : Int)) +
        (if p.turn then TEMPO_BONUS else -TEMPO_BONUS) * 24) 24 := by
  cases ht : p.turn
  · simp [evaluate_board, h1, h2, ht, floatDiv, floatSubInt, pyInt, TEMPO_BONUS]
    congr 1
  · simp [evaluate_board, h1, h2, ht, floatDiv, floatAddInt, pyInt, TEMPO_BONUS]

/-- Witness for the amended C6 at `posDownQueen`. -/
theorem C6_amended_witness :
    evaluate_board posDownQueen 0 =
      Int.tdiv (mg_score posDownQueen * (calculate_game_phase posDownQueen : Int) +
        eg_score posDownQueen * (24 - (calculate_game_phase posDownQueen : Int)) +
        (if posDownQueen.turn then TEMPO_BONUS else -TEMPO_BONUS) * 24) 24 ∧
    evaluate_board posDownQueen 0 = -991 :=
  ⟨C6_amended posDownQueen 0 (by decide) (by decide), by decide⟩

/-!
Claim C3: alpha-beta versus naive minimax.
-/

/-- Counterexample to claim C3: at `posBlocked99` (halfmove clock 99)
with depth 1 and freshly cleared tables, the full-window alpha-beta
search returns 0 — every root move reaches a child whose fifty-move draw
is claimable, and the search's repetition/claimable-draw gate turns each
into 0 — while the naive minimax with the same evaluator, terminal rule
and leaf rule returns −6. -/
theorem C3_counterexample :
    (minimax 1 (MinimaxAgent.clear_tt (MinimaxAgent.new 5)) (Board.ofPos posBlocked99)
      (-100000) 100000 0).1 = 0 ∧
    naiveMinimax (MinimaxAgent.clear_tt (MinimaxAgent.new 5)) 1
      (Board.ofPos posBlocked99) 0 = -6 ∧
    (minimax 1 (MinimaxAgent.clear_tt (MinimaxAgent.new 5)) (Board.ofPos posBlocked99)
      (-100000) 100000 0).1 ≠
      naiveMinimax (MinimaxAgent.clear_tt (MinimaxAgent.new 5)) 1
        (Board.ofPos posBlocked99) 0 := by
  refine ⟨?_, ?_, ?_⟩ <;> decide

/-- Amended claim C3: the equivalence holds at depth 0, where both
searches reduce to the same terminal test and the same full-window
quiescence call; from depth 1 on it fails, because the search applies
the repetition/claimable-draw gate to interior nodes while the naive
minimax has no such rule. -/
theorem C3_amended (E : MinimaxAgent) (b : Board) :
    (minimax 0 (MinimaxAgent.clear_tt E) b (-100000) 100000 0).1 =
      naiveMinimax (MinimaxAgent.clear_tt E) 0 b 0 := by
  show (minimax 0 (MinimaxAgent.clear_tt E) b (-100000) 100000 0).1 = _
  rw [minimax, naiveMinimax]
  norm_num
  split <;> rfl

/-!
Claim C4: the root exemption from the gate and the TT probe.
-/

/-- Counterexample to claim C4: from `posBlocked99`, the root move
a1-b2 reaches a child position whose fifty-move draw is claimable, so by
the claim the root-move search (a "position reached by making a single
root move") must return 0; but `select_move`'s per-move call passes
`ply_from_root = 0`, the gate is skipped, and the value is −6. -/
theorem C4_counterexample :
    Board.canClaimDraw ((Board.ofPos posBlocked99).push ⟨0, 9, none⟩) = true ∧
    (rootSearchChild 1 (MinimaxAgent.new 5) (Board.ofPos posBlocked99)
      (-100000) 100000 ⟨0, 9, none⟩).1 = -6 := by
  refine ⟨?_, ?_⟩ <;> decide

/-- Amended claim C4: inside `minimax`, every node with
`ply_from_root > 0` is subject to the repetition/claimable-draw gate
(returning 0 with the state untouched) and to the transposition-table
probe (an Exact entry of sufficient depth is returned after mate
de-normalization); the root itself, and every position reached by a
single root move (which `select_move` searches with `ply_from_root = 0`),
are exempt from both. -/
theorem C4_amended (E : MinimaxAgent) (b : Board) (alpha beta : Int) (ply : Nat) :
    (∀ depth, 0 < ply → (b.isRepetition 2 || b.canClaimDraw) = true →
      minimax depth E b alpha beta ply = (0, E, b))
    ∧ (∀ d entry, 0 < ply → (b.isRepetition 2 || b.canClaimDraw) = false →
        b.isGameOver = false →
        E.transposition_table.find? (zobrist_hash b.pos) = some entry →
        entry.depth ≥ d + 1 → entry.flag = TT_EXACT →
        (minimax (d + 1) E b alpha beta ply).1 = denormalizeMate entry.score ply) := by
  constructor
  · intro depth hply hgate
    rw [minimax.eq_def]
    simp [hgate, hply]
  · intro d entry hply hgate hgo hfind hdepth hflag
    have hd : (decide (ply > 0) && (b.isRepetition 2 || b.canClaimDraw)) = false := by
      simp [hgate]
    have hprobe : ttProbe (incNodes E) (zobrist_hash b.pos) (d + 1) alpha beta ply =
        (incTTCutoffs (incTTHits (incNodes E)),
         some (denormalizeMate entry.score ply), alpha, beta) := by
      unfold ttProbe
      have htt : (incNodes E).transposition_table = E.transposition_table := rfl
      rw [if_pos hply, htt, hfind]
      simp [hdepth, hflag, TT_EXACT]
    rw [minimax.eq_def]
    simp [hd, hgo, hprobe]

/-- Witness for the amended C4: the gate fires at ply 1 on the claimable
child of `posBlocked99` (any depth, here 3), and an Exact TT entry with
score 123 at depth 1 is returned verbatim at ply 1 on `posBlocked0`. -/
theorem C4_amended_witness :
    minimax 3 (MinimaxAgent.new 5) ((Board.ofPos posBlocked99).push ⟨0, 9, none⟩)
      (-100000) 100000 1 =
      (0, MinimaxAgent.new 5, (Board.ofPos posBlocked99).push ⟨0, 9, none⟩) ∧
    (minimax 1
      { MinimaxAgent.new 5 with
        transposition_table := NatMap.insert .leaf (zobrist_hash posBlocked0)
          ⟨123, 1, TT_EXACT, none⟩ }
      (Board.ofPos posBlocked0) (-100000) 100000 1).1 = 123 := by
  constructor
  · exact (C4_amended (MinimaxAgent.new 5)
      ((Board.ofPos posBlocked99).push ⟨0, 9, none⟩) (-100000) 100000 1).1 3
      (by decide) (by decide)
  · exact ((C4_amended
      { MinimaxAgent.new 5 with
        transposition_table := NatMap.insert .leaf (zobrist_hash posBlocked0)
          ⟨123, 1, TT_EXACT, none⟩ }
      (Board.ofPos posBlocked0) (-100000) 100000 1).2 0 ⟨123, 1, TT_EXACT, none⟩
      (by decide) (by decide) (by decide) (by decide) (by decide) rfl).trans (by decide)

/-!
Claim C7: the transposition-table replacement policy.
-/

/-- Lookup after insertion finds the inserted value; `insert` and
`find?` navigate by the same comparisons, so no search-tree invariant is
needed. -/
theorem natmap_find_insert_self {α : Type} (t : NatMap α) (k : Nat) (v : α) :
    (t.insert k v).find? k = some v := by
  induction t with
  | leaf => simp [NatMap.insert, NatMap.find?]
  | node l k1 v1 r ihl ihr =>
    by_cases h1 : k < k1
    · simp [NatMap.insert, NatMap.find?, h1, ihl]
    · by_cases h2 : k1 < k
      · simp [NatMap.insert, NatMap.find?, h1, h2, ihr]
      · simp [NatMap.insert, NatMap.find?, h1, h2]

/-- Claim C7 (confirmed): the TT store obeys the replacement policy — a
missing key is inserted unconditionally; a strictly shallower existing
entry is replaced; at equal or greater existing depth, the entry is
replaced exactly when the new flag is Exact and the old one is not, and
kept unchanged otherwise. -/
theorem C7_tt_replacement (tt : NatMap TTEntry) (key : Nat) (e : TTEntry) :
    (tt.find? key = none → (tt_store tt key e).find? key = some e)
    ∧ (∀ o, tt.find? key = some o → o.depth < e.depth →
        (tt_store tt key e).find? key = some e)
    ∧ (∀ o, tt.find? key = some o → e.depth ≤ o.depth →
        (tt_store tt key e).find? key =
          if e.flag = TT_EXACT ∧ o.flag ≠ TT_EXACT then some e else some o) := by
  refine ⟨fun h => ?_, fun o ho hlt => ?_, fun o ho hle => ?_⟩
  · simp [tt_store, tt_should_replace, h, natmap_find_insert_self]
  · have h1 : ¬ o.depth > e.depth := by omega
    have h2 : (o.depth == e.depth) = false := by
      simp only [beq_eq_false_iff_ne, ne_eq]
      omega
    simp [tt_store, tt_should_replace, ho, h1, h2, natmap_find_insert_self]
  · have hfork : tt_should_replace (some o) e.depth e.flag =
        (e.flag == TT_EXACT && o.flag != TT_EXACT) := by
      unfold tt_should_replace
      rcases Nat.lt_or_ge e.depth o.depth with h | h
      · have hgt : o.depth > e.depth := h
        simp [hgt]
      · have heq : o.depth = e.depth := by omega
        simp [heq]
    unfold tt_store
    rw [ho, hfork]
    by_cases hc : e.flag = TT_EXACT ∧ o.flag ≠ TT_EXACT
    · have hb : (e.flag == TT_EXACT && o.flag != TT_EXACT) = true := by
        simp [hc.1, hc.2]
      rw [hb, if_pos rfl, natmap_find_insert_self, if_pos hc]
    · have hb : (e.flag == TT_EXACT && o.flag != TT_EXACT) = false := by
        rcases Decidable.not_and_iff_or_not.mp hc with h | h
        · simp [h]
        · have hof : o.flag = TT_EXACT := Decidable.not_not.mp h
          simp [hof]
      rw [hb]
      simp [hc, ho]

/-- Witness for C7 at concrete entries: a fresh insert, a deeper new
entry replacing, an Exact entry replacing a deeper bound entry, and an
Exact entry failing to displace a deeper Exact entry. -/
theorem C7_witness :
    (tt_store .leaf 7 ⟨10, 2, 0, none⟩).find? 7 = some ⟨10, 2, 0, none⟩ ∧
    (tt_store (NatMap.insert .leaf 7 ⟨5, 1, 1, none⟩) 7 ⟨10, 2, 1, none⟩).find? 7 =
      some ⟨10, 2, 1, none⟩ ∧
    (tt_store (NatMap.insert .leaf 7 ⟨5, 3, 1, none⟩) 7 ⟨10, 2, 0, none⟩).find? 7 =
      some ⟨10, 2, 0, none⟩ ∧
    (tt_store (NatMap.insert .leaf 7 ⟨5, 3, 0, none⟩) 7 ⟨10, 2, 0, none⟩).find? 7 =
      some ⟨5, 3, 0, none⟩ := by
  refine ⟨?_, ?_, ?_, ?_⟩
  · exact (C7_tt_replacement .leaf 7 ⟨10, 2, 0, none⟩).1 (by decide)
  · exact (C7_tt_replacement _ 7 ⟨10, 2, 1, none⟩).2.1 ⟨5, 1, 1, none⟩ (by decide)
      (by decide)
  · exact ((C7_tt_replacement _ 7 ⟨10, 2, 0, none⟩).2.2 ⟨5, 3, 1, none⟩ (by decide)
      (by decide)).trans (by norm_num [TT_EXACT])
  · exact ((C7_tt_replacement _ 7 ⟨10, 2, 0, none⟩).2.2 ⟨5, 3, 0, none⟩ (by decide)
      (by decide)).trans (by norm_num [TT_EXACT])

/-!
Claim C9: game-phase monotonicity under piece removal.
-/

/-- Counterexample to claim C9: with a promoted extra queen the raw
phase sum is 28; the phase is clamped at 24 and removing the b1 knight
(raw sum 27) leaves the computed phase at 24, not strictly smaller,
although the phase is positive. -/
theorem C9_counterexample :
    calculate_game_phase posStartExtraQueen = 24 ∧
    0 < calculate_game_phase posStartExtraQueen ∧
    Position.pieceTypeAt posStartExtraQueen 1 = some .knight ∧
    ¬(calculate_game_phase (removePieceAt posStartExtraQueen 1) <
        calculate_game_phase posStartExtraQueen) := by
  refine ⟨by decide, by decide, by decide, ?_⟩
  have h1 : calculate_game_phase (removePieceAt posStartExtraQueen 1) = 24 := by decide
  have h2 : calculate_game_phase posStartExtraQueen = 24 := by decide
  omega

/-- A square bit below 64 is the plain power of two. -/
theorem bbSquare_eq_two_pow {sq : Nat} (h : sq < 64) : bbSquare sq = 2 ^ sq := by
  unfold bbSquare BB_ALL
  rw [Nat.shiftLeft_eq, one_mul, show (0xFFFFFFFFFFFFFFFF : Nat) = 2 ^ 64 - 1 by norm_num]
  refine Nat.eq_of_testBit_eq fun j => ?_
  rw [Nat.testBit_land, Nat.testBit_two_pow_sub_one]
  rcases eq_or_ne sq j with rfl | hne
  · simp [h]
  · simp [Nat.testBit_two_pow, hne]

/-- Bitboard membership is bit testing, below 64. -/
theorem bbHas_eq_testBit (bb : Nat) {sq : Nat} (h : sq < 64) :
    bbHas bb sq = bb.testBit sq := by
  unfold bbHas
  rw [bbSquare_eq_two_pow h, Nat.and_two_pow]
  cases hb : bb.testBit sq <;> simp [hb, (Nat.two_pow_pos sq).ne']

/-- The clear-one-square mask keeps every other bit below 64. -/
theorem testBit_bbNot_bbSquare {sq x : Nat} (hsq : sq < 64) (hx : x < 64) :
    (bbNot (bbSquare sq)).testBit x = !(decide (x = sq)) := by
  unfold bbNot BB_ALL
  rw [show (0xFFFFFFFFFFFFFFFF : Nat) = 2 ^ 64 - 1 by norm_num]
  rw [Nat.testBit_xor, Nat.testBit_two_pow_sub_one, Nat.testBit_land,
    Nat.testBit_two_pow_sub_one, bbSquare_eq_two_pow hsq, Nat.testBit_two_pow]
  rcases eq_or_ne x sq with rfl | hne
  · simp [hx]
  · simp [hx, hne, Ne.symm hne]

/-- Removing a piece leaves the piece lookup unchanged on every other
square. -/
theorem pieceTypeAt_removePieceAt_ne (p : Position) {sq x : Nat}
    (hsq : sq < 64) (hx : x < 64) (hne : x ≠ sq) :
    (removePieceAt p sq).pieceTypeAt x = p.pieceTypeAt x := by
  have hkeep : ∀ bb : Nat, bbHas (bb &&& bbNot (bbSquare sq)) x = bbHas bb x := by
    intro bb
    rw [bbHas_eq_testBit _ hx, bbHas_eq_testBit _ hx, Nat.testBit_land,
      testBit_bbNot_bbSquare hsq hx]
    simp [hne]
  have hocc : bbHas ((p.occWhite &&& bbNot (bbSquare sq)) |||
      (p.occBlack &&& bbNot (bbSquare sq))) x = bbHas (p.occWhite ||| p.occBlack) x := by
    rw [bbHas_eq_testBit _ hx, bbHas_eq_testBit _ hx, Nat.testBit_lor, Nat.testBit_lor,
      Nat.testBit_land, Nat.testBit_land, testBit_bbNot_bbSquare hsq hx]
    simp [hne]
  simp only [Position.pieceTypeAt, Position.occupied, removePieceAt]
  simp only [hocc, hkeep]

/-- The removed square reads empty. -/
theorem pieceTypeAt_removePieceAt_self (p : Position) {sq : Nat} (hsq : sq < 64) :
    (removePieceAt p sq).pieceTypeAt sq = none := by
  have hocc : bbHas ((p.occWhite &&& bbNot (bbSquare sq)) |||
      (p.occBlack &&& bbNot (bbSquare sq))) sq = false := by
    rw [bbHas_eq_testBit _ hsq, Nat.testBit_lor, Nat.testBit_land, Nat.testBit_land,
      testBit_bbNot_bbSquare hsq hsq]
    simp
  simp only [Position.pieceTypeAt, Position.occupied, removePieceAt]
  rw [hocc]
  simp

/-- Summing a pointwise-equal-except-one function over a duplicate-free
list containing that point. -/
theorem sum_map_update_of_mem {l : List Nat} {f g : Nat → Nat} {sq w : Nat}
    (hnd : l.Nodup) (hmem : sq ∈ l)
    (hne : ∀ x ∈ l, x ≠ sq → f x = g x) (hsq : f sq = g sq + w) :
    (l.map f).sum = (l.map g).sum + w := by
  induction l with
  | nil => cases hmem
  | cons a t ih =>
    rcases List.mem_cons.mp hmem with rfl | hmem2
    · have hall : ∀ x ∈ t, f x = g x := by
        intro x hx
        refine hne x (List.mem_cons_of_mem _ hx) ?_
        rintro rfl
        exact (List.nodup_cons.mp hnd).1 hx
      rw [List.map_cons, List.map_cons, List.sum_cons, List.sum_cons, hsq,
        List.map_congr_left hall]
      omega
    · have ha : f a = g a := by
        refine hne a (List.mem_cons_self a t) ?_
        rintro rfl
        exact (List.nodup_cons.mp hnd).1 hmem2
      have ht := ih (List.nodup_cons.mp hnd).2 hmem2
        (fun x hx hxne => hne x (List.mem_cons_of_mem _ hx) hxne)
      rw [List.map_cons, List.map_cons, List.sum_cons, List.sum_cons, ha, ht]
      omega

/-- Amended claim C9: removing a single knight, bishop, rook or queen
strictly decreases `calculate_game_phase` provided the raw phase sum
after removal is below the clamp of 24 (without that proviso the clamp
can absorb the decrease, as the counterexample shows; the claim's
`phase > 0` hypothesis is implied by the removed piece's weight). -/
theorem C9_amended (p : Position) (sq : Nat) (t : PieceType)
    (hsq : sq < 64) (hpt : p.pieceTypeAt sq = some t)
    (ht : t = .knight ∨ t = .bishop ∨ t = .rook ∨ t = .queen)
    (hlow : phase_sum (removePieceAt p sq) < 24) :
    calculate_game_phase (removePieceAt p sq) < calculate_game_phase p := by
  have hw : 1 ≤ phase_values t := by
    rcases ht with rfl | rfl | rfl | rfl <;> decide
  have hmem : sq ∈ squaresAsc := by
    have hall : ∀ n, n < 64 → n ∈ squaresAsc := by decide
    exact hall sq hsq
  have hnd : squaresAsc.Nodup := by decide
  have hbound : ∀ x ∈ squaresAsc, x < 64 := by decide
  have hdecomp : phase_sum p = phase_sum (removePieceAt p sq) + phase_values t := by
    unfold phase_sum
    refine sum_map_update_of_mem hnd hmem ?_ ?_
    · intro x hx hxne
      unfold phaseWeightAt
      rw [pieceTypeAt_removePieceAt_ne p hsq (hbound x hx) hxne]
    · unfold phaseWeightAt
      rw [hpt, pieceTypeAt_removePieceAt_self p hsq]
      simp
  unfold calculate_game_phase
  rw [hdecomp]
  omega

/-- Witness for the amended C9: removing the black queen from
`posDownQueen` drops the phase from 4 to 0. -/
theorem C9_amended_witness :
    calculate_game_phase (removePieceAt posDownQueen 35) <
      calculate_game_phase posDownQueen ∧
    calculate_game_phase posDownQueen = 4 ∧
    calculate_game_phase (removePieceAt posDownQueen 35) = 0 :=
  ⟨C9_amended posDownQueen 35 .queen (by decide) (by decide)
      (Or.inr (Or.inr (Or.inr rfl))) (by decide),
    by decide, by decide⟩

/-- Claim C8: the root window selection and the fail re-search of
`select_move`. At any depth, a previous completed score `s` yields the
aspiration window `(s - 50, s + 50)` exactly when `current_depth ≥ 2`,
and the full window `±100000` otherwise (also when no previous score
exists); and when the aspirated pass completes (all root moves searched)
with a best score at or below the original alpha or at or above the
original beta, `runDepth` re-searches the entire depth exactly once with
the full window and returns that second pass; when the completion/fail
condition does not hold, it returns the first pass with no re-search. -/
theorem C8_aspiration_and_research :
    (∀ d s, 2 ≤ d → aspirationWindow d (some s) = (s - 50, s + 50, true)) ∧
    (∀ d s, d < 2 → aspirationWindow d (some s) = (-100000, 100000, false)) ∧
    (∀ d, aspirationWindow d none = (-100000, 100000, false)) ∧
    (∀ oracle timed d prev E b tIdx,
      (Position.legalMoves b.pos).isEmpty = false →
      ∀ r, r = searchRootMoves oracle timed d
            (orderRootMoves (resetCounters E) b.pos (Position.legalMoves b.pos))
            (initRootState (aspirationWindow d prev).1
              (aspirationWindow d prev).2.1 (resetCounters E) b tIdx b.pos.turn) →
      r.searched ≥ (Position.legalMoves b.pos).length →
      (aspirationWindow d prev).2.2 = true →
      (r.best_value ≤ (aspirationWindow d prev).1 ∨
        r.best_value ≥ (aspirationWindow d prev).2.1) →
      runDepth oracle timed d prev E b tIdx =
        (let r2 := searchRootMoves oracle false d
            (orderRootMoves (resetCounters E) b.pos (Position.legalMoves b.pos))
            (initRootState (-100000) 100000 r.agent r.board r.tIdx b.pos.turn)
         ⟨r2.best_move, r2.best_value,
           decide (r2.searched ≥ (Position.legalMoves b.pos).length),
           r2.agent, r2.board, r2.tIdx, false⟩)) ∧
    (∀ oracle timed d prev E b tIdx,
      (Position.legalMoves b.pos).isEmpty = false →
      ∀ r, r = searchRootMoves oracle timed d
            (orderRootMoves (resetCounters E) b.pos (Position.legalMoves b.pos))
            (initRootState (aspirationWindow d prev).1
              (aspirationWindow d prev).2.1 (resetCounters E) b tIdx b.pos.turn) →
      (decide (r.searched ≥ (Position.legalMoves b.pos).length) &&
        (aspirationWindow d prev).2.2 &&
        (decide (r.best_value ≤ (aspirationWindow d prev).1) ||
          decide (r.best_value ≥ (aspirationWindow d prev).2.1))) = false →
      runDepth oracle timed d prev E b tIdx =
        ⟨r.best_move, r.best_value,
          decide (r.searched ≥ (Position.legalMoves b.pos).length),
          r.agent, r.board, r.tIdx, false⟩) := by
  refine ⟨?_, ?_, ?_, ?_, ?_⟩
  · intro d s h
    simp [aspirationWindow, h]
  · intro d s h
    have h2 : ¬(2 ≤ d) := by omega
    simp [aspirationWindow, h2]
  · intro d
    rfl
  · intro oracle timed d prev E b tIdx hne r hr hcomp hasp hfail
    have h1 : decide (r.searched ≥ (Position.legalMoves b.pos).length) = true :=
      decide_eq_true hcomp
    have h3 : (decide (r.best_value ≤ (aspirationWindow d prev).1) ||
        decide (r.best_value ≥ (aspirationWindow d prev).2.1)) = true := by
      rcases hfail with h | h
      · rw [decide_eq_true h, Bool.true_or]
      · rw [decide_eq_true h, Bool.or_true]
    simp only [runDepth, hne, Bool.false_eq_true, if_false]
    rw [← hr, h1, hasp, h3]
    simp
  · intro oracle timed d prev E b tIdx hne r hr hcond
    simp only [runDepth, hne, Bool.false_eq_true, if_false]
    rw [← hr, hcond]
    simp

set_option smartUnfolding false in
set_option maxHeartbeats 4000000 in
/-- Witness for C8 on `posBlocked0` (White to move, all heavy pieces
off): at depth 2 the previous score -1000 yields the window
(-1050, -950); the aspirated pass completes and fails high (its best
value -950 reaches the window top), so `runDepth` re-searches with the
full window and returns -24 with the king move a1-b2; at depth 1 with no
previous score the window is full, the condition is false, and the first
pass's value -6 is returned unchanged. -/
theorem C8_witness :
    ((2:Nat) ≤ 2 ∧ aspirationWindow 2 (some (-1000)) = (-1050, -950, true)) ∧
    ((1:Nat) < 2 ∧ aspirationWindow 1 (some 7) = (-100000, 100000, false)) ∧
    aspirationWindow 3 none = (-100000, 100000, false) ∧
    (runDepth oracleNever false 2 (some (-1000)) (MinimaxAgent.new 5)
        (Board.ofPos posBlocked0) 0).best_value = -24 ∧
    (runDepth oracleNever false 2 (some (-1000)) (MinimaxAgent.new 5)
        (Board.ofPos posBlocked0) 0).best_move = some ⟨0, 9, none⟩ ∧
    (runDepth oracleNever false 1 none (MinimaxAgent.new 5)
        (Board.ofPos posBlocked0) 0).best_value = -6 := by
  refine ⟨⟨by decide, C8_aspiration_and_research.1 2 (-1000) (by decide)⟩,
    ⟨by decide, C8_aspiration_and_research.2.1 1 7 (by decide)⟩,
    C8_aspiration_and_research.2.2.1 3, ?_, ?_, ?_⟩
  · rw [C8_aspiration_and_research.2.2.2.1 oracleNever false 2 (some (-1000))
      (MinimaxAgent.new 5) (Board.ofPos posBlocked0) 0 (by decide) _ rfl
      (by decide) rfl (Or.inr (by decide))]
    decide
  · rw [C8_aspiration_and_research.2.2.2.1 oracleNever false 2 (some (-1000))
      (MinimaxAgent.new 5) (Board.ofPos posBlocked0) 0 (by decide) _ rfl
      (by decide) rfl (Or.inr (by decide))]
    decide
  · rw [C8_aspiration_and_research.2.2.2.2 oracleNever false 1 none
      (MinimaxAgent.new 5) (Board.ofPos posBlocked0) 0 (by decide) _ rfl
      (by decide)]
    decide


/-- `Board.pop` undoes `Board.push`: the saved position and tail history
are restored exactly. -/
theorem pop_push (b : Board) (m : Move) : (b.push m).pop = b := rfl

/-- The quiescence maximizer loop returns the board it is given whenever
the recursive call it delegates to does. -/
theorem qsLoopMax_board (rec : MinimaxAgent → Board → Int → Int × MinimaxAgent × Board)
    (sp : Int) (phase : Nat) (ic : Bool) (beta : Int)
    (hrec : ∀ E b a, (rec E b a).2.2 = b) :
    ∀ ms alpha E b, (qsLoopMax rec sp phase ic beta ms alpha E b).2.2.2 = b := by
  intro ms
  induction ms with
  | nil => intro alpha E b; rfl
  | cons m rest ih =>
    intro alpha E b
    simp only [qsLoopMax]
    repeat' split
    all_goals first
    | exact ih _ _ _
    | (rw [hrec, pop_push]; exact ih _ _ _)
    | rw [hrec, pop_push]

/-- The quiescence minimizer loop returns the board it is given whenever
the recursive call it delegates to does. -/
theorem qsLoopMin_board (rec : MinimaxAgent → Board → Int → Int × MinimaxAgent × Board)
    (sp : Int) (phase : Nat) (ic : Bool) (alpha : Int)
    (hrec : ∀ E b bt, (rec E b bt).2.2 = b) :
    ∀ ms beta E b, (qsLoopMin rec sp phase ic alpha ms beta E b).2.2.2 = b := by
  intro ms
  induction ms with
  | nil => intro beta E b; rfl
  | cons m rest ih =>
    intro beta E b
    simp only [qsLoopMin]
    repeat' split
    all_goals first
    | exact ih _ _ _
    | (rw [hrec, pop_push]; exact ih _ _ _)
    | rw [hrec, pop_push]

/-- `quiescence` always hands back exactly the board it was given: every
push is matched by a pop on all control paths (stand-pat exits, delta
pruning, beta cutoffs, and loop completion alike). -/
theorem quiescence_board :
    ∀ fuel E b alpha beta ply qd mqd,
      (quiescence fuel E b alpha beta ply qd mqd).2.2 = b := by
  intro fuel
  induction fuel with
  | zero => intro E b alpha beta ply qd mqd; rfl
  | succ n ih =>
    intro E b alpha beta ply qd mqd
    simp only [quiescence]
    repeat' split
    all_goals try rfl
    all_goals rename_i heq
    all_goals
      have h3 := congrArg (fun t => t.2.2.2) heq
      simp only [] at h3
      first
      | rw [qsLoopMax_board _ _ _ _ _ (fun E c x => ih E c _ _ _ _ _)] at h3
      | rw [qsLoopMin_board _ _ _ _ _ (fun E c x => ih E c _ _ _ _ _)] at h3
      exact h3.symm

/-- The minimax maximizer loop returns the board it is given whenever
the recursive call it delegates to does. -/
theorem minimaxLoopMax_board
    (rec : MinimaxAgent → Board → Int → Int → Int × MinimaxAgent × Board)
    (depth ply : Nat) (hrec : ∀ E b a bt, (rec E b a bt).2.2 = b) :
    ∀ ms alpha beta me best E b,
      (minimaxLoopMax rec depth ply ms alpha beta me best E b).2.2.2 = b := by
  intro ms
  induction ms with
  | nil => intro alpha beta me best E b; rfl
  | cons m rest ih =>
    intro alpha beta me best E b
    simp only [minimaxLoopMax]
    repeat' split
    all_goals first
    | exact ih _ _ _ _ _ _
    | (rw [hrec, pop_push]; exact ih _ _ _ _ _ _)
    | rw [hrec, pop_push]

/-- The minimax minimizer loop returns the board it is given whenever
the recursive call it delegates to does. -/
theorem minimaxLoopMin_board
    (rec : MinimaxAgent → Board → Int → Int → Int × MinimaxAgent × Board)
    (depth ply : Nat) (hrec : ∀ E b a bt, (rec E b a bt).2.2 = b) :
    ∀ ms alpha beta me best E b,
      (minimaxLoopMin rec depth ply ms alpha beta me best E b).2.2.2 = b := by
  intro ms
  induction ms with
  | nil => intro alpha beta me best E b; rfl
  | cons m rest ih =>
    intro alpha beta me best E b
    simp only [minimaxLoopMin]
    repeat' split
    all_goals first
    | exact ih _ _ _ _ _ _
    | (rw [hrec, pop_push]; exact ih _ _ _ _ _ _)
    | rw [hrec, pop_push]

/-- `minimax` always hands back exactly the board it was given, on the
draw gate, terminal, TT-hit, and full-loop paths alike. -/
theorem minimax_board :
    ∀ depth E b alpha beta ply, (minimax depth E b alpha beta ply).2.2 = b := by
  intro depth
  induction depth with
  | zero =>
    intro E b alpha beta ply
    rw [minimax.eq_def]
    simp only []
    repeat' split
    all_goals first
    | rfl
    | exact quiescence_board 13 _ _ _ _ _ _ _
  | succ d ih =>
    intro E b alpha beta ply
    rw [minimax.eq_def]
    simp only [Nat.add_one]
    repeat' split
    all_goals first
    | rfl
    | omega
    | rw [minimaxLoopMax_board _ _ _ (fun E c a bt => ih E c a bt (ply + 1))]
    | rw [minimaxLoopMin_board _ _ _ (fun E c a bt => ih E c a bt (ply + 1))]

/-- One root-move search hands back the caller board: the push is undone
by the pop around the `minimax` call. -/
theorem rootSearchChild_board (d : Nat) (E : MinimaxAgent) (b : Board)
    (alpha beta : Int) (m : Move) :
    (rootSearchChild d E b alpha beta m).2.2 = b := by
  simp only [rootSearchChild]
  rw [minimax_board, pop_push]

/-- The root-move loop never changes the board field of its state. -/
theorem searchRootMoves_board (oracle : Nat → Bool) (timed : Bool) (d : Nat) :
    ∀ ms st, (searchRootMoves oracle timed d ms st).board = st.board := by
  intro ms
  induction ms with
  | nil => intro st; rfl
  | cons m rest ih =>
    intro st
    simp only [searchRootMoves]
    repeat' split
    all_goals first
    | rfl
    | rw [ih, rootSearchChild_board]

/-- One depth iteration of `select_move` hands back the caller board on
all three paths (no legal moves, aspirated pass, full re-search). -/
theorem runDepth_board (oracle : Nat → Bool) (timed : Bool) (d : Nat)
    (prev : Option Int) (E : MinimaxAgent) (b : Board) (tIdx : Nat) :
    (runDepth oracle timed d prev E b tIdx).board = b := by
  simp only [runDepth]
  repeat' split
  all_goals first
  | rfl
  | simp only [searchRootMoves_board, initRootState]

/-- The iterative-deepening loop hands back the caller board. -/
theorem iterDeepen_board (oracle : Nat → Bool) (timed : Bool)
    (td : Option Nat) :
    ∀ fuel cd bm bv E b tIdx,
      (iterDeepen oracle timed td fuel cd bm bv E b tIdx).2.2 = b := by
  intro fuel
  induction fuel with
  | zero => intro cd bm bv E b tIdx; rfl
  | succ n ih =>
    intro cd bm bv E b tIdx
    simp only [iterDeepen]
    repeat' split
    all_goals first
    | rfl
    | rw [ih, runDepth_board]
    | rw [runDepth_board]

/-- `select_move` hands back the caller board. -/
theorem select_move_board (E : MinimaxAgent) (b : Board) (tl : Int)
    (td : Option Nat) (etl : Int) (oracle : Nat → Bool) :
    (select_move E b tl td etl oracle).2.2 = b := by
  simp only [select_move]
  exact iterDeepen_board _ _ _ _ _ _ _ _ _ _

/-- Claim C10: the search never mutates the caller position. Every push
of a move inside `quiescence` and `minimax` is matched by a pop on all
control paths (beta-cutoff early exits and delta-pruning skips
included), so `quiescence`, `minimax` and `select_move` all return the
exact board they were handed. -/
theorem C10_board_preservation :
    (∀ fuel E b alpha beta ply qd mqd,
      (quiescence fuel E b alpha beta ply qd mqd).2.2 = b) ∧
    (∀ depth E b alpha beta ply, (minimax depth E b alpha beta ply).2.2 = b) ∧
    (∀ E b tl td etl oracle, (select_move E b tl td etl oracle).2.2 = b) :=
  ⟨quiescence_board, minimax_board,
    fun E b tl td etl oracle => select_move_board E b tl td etl oracle⟩

end ChessEngine
